import Mathlib

/-!
# MySensors Linux Ethernet gateway transport

A shallow embedding of `libraries/MySensors/core/MyGatewayTransportEthernetLinux.cpp`:
the client table `controllers`, the inbound queue `ethernetMsg_q`, the broadcaster
`gatewayTransportSend`, the acceptor `waiting_controllers`, the per-connection reader
`connected_controller` and the MQTT bridge (`mqtt_message_callback`, `mqtt_thread`).

Threads are modelled one call at a time: every function is a state transformer on the
process-wide `Gateway` state, and the system calls it makes are appended to `Gateway.log`.
Results of system calls (`send`, `recv`, `accept`, `mosquitto_connect`) are inputs of the model.
Bytes are natural numbers; `10` is `'\n'`, `13` is `'\r'`, `0` is the C string terminator.
-/

namespace MyGateway

/-! ## Data model -/

/-- Modelled from the spec: the `MyMessage` type, whose declaration (`MyMessage.h`) is not among
the sources. The fields are the ones of the spec's data model (destination node id, sensor id,
command type, ack flag, sub-type, payload); the transport itself reads `destination`, `sensor`
and `type` only. -/
structure MyMessage where
  destination : Nat
  sensor : Nat
  command : Nat
  ack : Nat
  type : Nat
  payload : List Nat
deriving DecidableEq, Repr

/-- Ways in which a run of the C code can fail to produce a result. -/
inductive Fault where
  /-- the loop did not finish within the fuel it was given -/
  | outOfFuel
  /-- an array was indexed outside its bounds -/
  | outOfBounds
  /-- the calls `front()` / `pop_front()` were made on an empty `std::list` -/
  | emptyQueue
deriving DecidableEq, Repr

/-- Results of runs can be compared. -/
instance instDecidableEqExceptFault {α : Type} [DecidableEq α] : DecidableEq (Except Fault α)
  | .ok a, .ok b =>
    if h : a = b then isTrue (congrArg Except.ok h)
    else isFalse (fun h1 => h (Except.ok.inj h1))
  | .error a, .error b =>
    if h : a = b then isTrue (congrArg Except.error h)
    else isFalse (fun h1 => h (Except.error.inj h1))
  | .ok _, .error _ => isFalse (fun h => Except.noConfusion h)
  | .error _, .ok _ => isFalse (fun h => Except.noConfusion h)

/-- System and library calls made by the transport, in the order they are made. -/
inductive Event where
  /-- Call `send(fd, data, strlen(data), MSG_NOSIGNAL | MSG_DONTWAIT)` -/
  | send (fd : Int) (data : List Nat)
  /-- Call `shutdown(fd, SHUT_RDWR)` -/
  | shutdown (fd : Int)
  /-- Call `close(fd)` -/
  | close (fd : Int)
  /-- Call `perror("send")` -/
  | perror_send
  /-- Call `perror("recv")` -/
  | perror_recv
  /-- Call `perror("accept")` -/
  | perror_accept
  /-- Call `pthread_create(.., &connected_controller, (void *)fd)` -/
  | pthread_create_connected_controller (fd : Int)
  /-- Call `mosquitto_publish(mosq, NULL, topic, strlen(payload), payload, 0, false)` -/
  | mosquitto_publish (topic : List Nat) (payload : List Nat)
  /-- Call `mosquitto_lib_init()` -/
  | mosquitto_lib_init
  /-- Call `mosquitto_new(NULL, clean_session, NULL)` -/
  | mosquitto_new
  /-- Call `mosquitto_connect(mosq, MQTT_IP, MQTT_PORT, MQTT_KEEPALIVE)` -/
  | mosquitto_connect
  /-- Call `mosquitto_loop_forever(mosq, -1, 1)` -/
  | mosquitto_loop_forever
  /-- Call `mosquitto_destroy(mosq)` -/
  | mosquitto_destroy
  /-- Call `mosquitto_lib_cleanup()` -/
  | mosquitto_lib_cleanup
  /-- Call `fprintf(stderr, ..)` -/
  | fprintf_stderr
  /-- the `debug(..)` line of a rejected MQTT message -/
  | debug_bad_message
  /-- Call `exit(code)`: the whole process terminates -/
  | exit (code : Int)
deriving DecidableEq, Repr

/-- The file-scope state of the translation unit: `controllers`, `_ethernetMsg`,
`ethernetMsg_q`, together with the log of calls made so far (oldest first).
The array `int controllers[MY_GATEWAY_MAX_CLIENTS]` is a list that carries its size. -/
structure Gateway where
  controllers : List Int
  _ethernetMsg : MyMessage
  ethernetMsg_q : List MyMessage
  log : List Event
deriving DecidableEq, Repr

/-- The size of the array `controllers`, a configuration constant absent from the sources. -/
def MY_GATEWAY_MAX_CLIENTS (g : Gateway) : Nat := g.controllers.length

/-- The codec and the compile-time configuration the transport is built against. None of these
is defined in the sources, so each is a parameter.
`protocolParse` and `protocolMQTTParse` have the shape of the C functions: they receive the
message object to fill in and return the success flag together with the object as they leave it. -/
structure Config where
  /-- Function `bool protocolParse(MyMessage &message, char *inputString)` -/
  protocolParse : MyMessage → List Nat → Bool × MyMessage
  /-- Function `char *protocolFormat(MyMessage &message)` -/
  protocolFormat : MyMessage → List Nat
  /-- Function `char *protocolFormatMQTTTopic(const char *prefix, MyMessage &message)` -/
  protocolFormatMQTTTopic : List Nat → MyMessage → List Nat
  /-- Function `bool protocolMQTTParse(MyMessage &message, char *topic, uint8_t *payload, unsigned int length)` -/
  protocolMQTTParse : MyMessage → List Nat → List Nat → Bool × MyMessage
  /-- The string `message.getString(_convBuffer)` -/
  getString : MyMessage → List Nat
  /-- a default-constructed `MyMessage` (`MyMessage msg;`) -/
  newMyMessage : MyMessage
  /-- whether `MY_GATEWAY_MQTT_CLIENT` is defined -/
  MY_GATEWAY_MQTT_CLIENT : Bool
  /-- the macro `MY_MQTT_PUBLISH_TOPIC_PREFIX` -/
  MY_MQTT_PUBLISH_TOPIC_PREFIX : List Nat
  /-- the macro `MY_GATEWAY_MAX_RECEIVE_LENGTH`, the size of the reader's line buffer -/
  MY_GATEWAY_MAX_RECEIVE_LENGTH : Nat

/-- The value of `errno` for "resource temporarily unavailable" on Linux. -/
def EAGAIN : Int := 11

/-- What one `send(2)` call gives back: its return value and the `errno` it leaves. -/
structure SendResult where
  ret : Int
  errno : Int
deriving DecidableEq, Repr

/-! ## Loops with a `uint8_t` counter -/

/-- The loop `for (uint8_t i = start; i < n; i++) body`, where `body i s` returns the new state
and whether it executed `break`. The counter wraps at 256 like a `uint8_t`; the result is the
final value of `i` and the final state. -/
def forU8 {σ : Type} (n : Nat) (body : Nat → σ → Except Fault (σ × Bool)) :
    Nat → Nat → σ → Except Fault (Nat × σ)
  | 0, _, _ => .error .outOfFuel
  | fuel + 1, i, s =>
    if i < n then
      match body i s with
      | .error e => .error e
      | .ok (s1, true) => .ok (i, s1)
      | .ok (s1, false) => forU8 n body fuel ((i + 1) % 256) s1
    else .ok (i, s)

/-! ## Inbound queue -/

/-- The call `ethernetMsg_q.push_back(m)` (under `ethernetMsg_mutex`). -/
def push_back (g : Gateway) (m : MyMessage) : Gateway :=
  { g with ethernetMsg_q := g.ethernetMsg_q ++ [m] }

/-- The function `gatewayTransportAvailable`: returns `!ethernetMsg_q.empty()`. -/
def gatewayTransportAvailable (g : Gateway) : Bool × Gateway :=
  let empty := g.ethernetMsg_q.isEmpty
  (!empty, g)

/-- The function `gatewayTransportReceive`: copies `ethernetMsg_q.front()` into `_ethernetMsg`,
pops it and returns `_ethernetMsg`. -/
def gatewayTransportReceive (g : Gateway) : Except Fault (MyMessage × Gateway) :=
  match g.ethernetMsg_q with
  | [] => .error .emptyQueue
  | front :: rest => .ok (front, { g with _ethernetMsg := front, ethernetMsg_q := rest })

/-! ## Outbound broadcaster -/

/-- Body of the fan-out loop shared by `gatewayTransportSend` and `mqtt_message_callback`:
skip a free slot, otherwise `send` the frame; on `-1` with `errno == EAGAIN` shut the
connection down and free the slot; on any `-1` call `perror`. `sendResult i` is what the
`send` made for slot `i` gives back. -/
def sendBody (sendResult : Nat → SendResult) (ethernetMsg : List Nat) (i : Nat) (g : Gateway) :
    Except Fault (Gateway × Bool) :=
  match g.controllers[i]? with
  | none => .error .outOfBounds
  | some fd =>
    if fd = -1 then .ok (g, false)
    else
      let g1 := { g with log := g.log ++ [Event.send fd ethernetMsg] }
      if (sendResult i).ret = -1 then
        let g2 :=
          if (sendResult i).errno = EAGAIN then
            { g1 with controllers := g1.controllers.set i (-1),
                      log := g1.log ++ [Event.shutdown fd] }
          else g1
        .ok ({ g2 with log := g2.log ++ [Event.perror_send] }, false)
      else .ok (g1, false)

/-- The function `gatewayTransportSend`. `publishResult` is the value `mosquitto_publish` returns,
which the code discards. -/
def gatewayTransportSend (cfg : Config) (sendResult : Nat → SendResult) (publishResult : Int)
    (message : MyMessage) (fuel : Nat) (g : Gateway) : Except Fault (Bool × Gateway) :=
  let ethernetMsg := cfg.protocolFormat message
  match forU8 (MY_GATEWAY_MAX_CLIENTS g) (sendBody sendResult ethernetMsg) fuel 0 g with
  | .error e => .error e
  | .ok (_, g1) =>
    if cfg.MY_GATEWAY_MQTT_CLIENT then
      let mqttMsg := cfg.protocolFormatMQTTTopic cfg.MY_MQTT_PUBLISH_TOPIC_PREFIX message
      let _ := publishResult
      .ok (true, { g1 with log := g1.log ++ [Event.mosquitto_publish mqttMsg (cfg.getString message)] })
    else .ok (true, g1)

/-! ## Connection acceptor -/

/-- Body of the registration loop of `waiting_controllers`: the first slot holding `-1` takes
`new_fd` and the loop breaks. -/
def registerBody (new_fd : Int) (i : Nat) (g : Gateway) : Except Fault (Gateway × Bool) :=
  match g.controllers[i]? with
  | none => .error .outOfBounds
  | some fd =>
    if fd = -1 then .ok ({ g with controllers := g.controllers.set i new_fd }, true)
    else .ok (g, false)

/-- One pass of the `while (1)` accept loop of `waiting_controllers`, where `new_fd` is the value
`accept` returned: on `-1` only `perror`; otherwise the reader thread is created, the table is
scanned for a free slot, and the connection is closed when the scan ran off the end. -/
def waiting_controllers_pass (new_fd : Int) (fuel : Nat) (g : Gateway) : Except Fault Gateway :=
  if new_fd = -1 then .ok { g with log := g.log ++ [Event.perror_accept] }
  else
    let g1 := { g with log := g.log ++ [Event.pthread_create_connected_controller new_fd] }
    match forU8 (MY_GATEWAY_MAX_CLIENTS g1) (registerBody new_fd) fuel 0 g1 with
    | .error e => .error e
    | .ok (i, g2) =>
      if i ≥ MY_GATEWAY_MAX_CLIENTS g2 then .ok { g2 with log := g2.log ++ [Event.close new_fd] }
      else .ok g2

/-- The function `waiting_controllers` run for as many passes of its endless loop as there are
`accept` results in `accepts`. -/
def waiting_controllers (fuel : Nat) : List Int → Gateway → Except Fault Gateway
  | [], g => .ok g
  | new_fd :: more, g =>
    match waiting_controllers_pass new_fd fuel g with
    | .error e => .error e
    | .ok g1 => waiting_controllers fuel more g1

/-! ## Per-connection reader -/

/-- The C string a `char *` points at: the bytes before the first NUL. -/
def cstr (buf : List Nat) : List Nat := buf.takeWhile (fun b => b ≠ 0)

/-- Locals of `connected_controller`: the line buffer, `ptr` as an offset into it, `nbytes`
and the message object handed to `protocolParse`. -/
structure Reader where
  inputString : List Nat
  ptr : Nat
  nbytes : Nat
  ethernetMsg : MyMessage
deriving DecidableEq, Repr

/-- The locals when `connected_controller` starts. The buffer is not initialised by the code:
`stack k` is whatever byte the stack holds at offset `k`. -/
def Reader.start (cfg : Config) (stack : Nat → Nat) : Reader :=
  { inputString := (List.range cfg.MY_GATEWAY_MAX_RECEIVE_LENGTH).map stack,
    ptr := 0, nbytes := 0, ethernetMsg := cfg.newMyMessage }

/-- One pass of the `while (1)` loop of `connected_controller` in which `recv` returned 1 and
stored the byte `b` at `*ptr`. -/
def recvByte (cfg : Config) (b : Nat) (st : Reader × Gateway) : Except Fault (Reader × Gateway) :=
  let r := st.1
  let g := st.2
  if r.ptr < r.inputString.length then
    let buf := r.inputString.set r.ptr b
    if b = 10 ∨ b = 13 then
      let buf0 := buf.set r.ptr 0
      let parsed := cfg.protocolParse r.ethernetMsg (cstr buf0)
      let g1 := if parsed.1 then push_back g parsed.2 else g
      .ok ({ inputString := buf0, ptr := 0, nbytes := 0, ethernetMsg := parsed.2 }, g1)
    else
      let nbytes := r.nbytes + 1
      if nbytes = cfg.MY_GATEWAY_MAX_RECEIVE_LENGTH then
        .ok ({ r with inputString := buf, ptr := 0, nbytes := 0 }, g)
      else
        .ok ({ r with inputString := buf, ptr := r.ptr + 1, nbytes := nbytes }, g)
  else .error .outOfBounds

/-- The `while (1)` loop of `connected_controller` for as long as `recv` returns 1: the bytes of
`bytes` are received one after the other. -/
def recvLoop (cfg : Config) : List Nat → Reader × Gateway → Except Fault (Reader × Gateway)
  | [], st => .ok st
  | b :: more, st =>
    match recvByte cfg b st with
    | .error e => .error e
    | .ok st1 => recvLoop cfg more st1

/-- Body of the loop that ends `connected_controller`: the first slot holding `sockfd` is set
to `-1` and the loop breaks. -/
def unregisterBody (sockfd : Int) (i : Nat) (g : Gateway) : Except Fault (Gateway × Bool) :=
  match g.controllers[i]? with
  | none => .error .outOfBounds
  | some fd =>
    if fd = sockfd then .ok ({ g with controllers := g.controllers.set i (-1) }, true)
    else .ok (g, false)

/-- The function `connected_controller` on a connection that delivers `bytes` and then makes
`recv` return `rc` (0 at end of file, -1 on error): the receive loop, `perror` on `-1`,
the slot of `sockfd` freed, `close(sockfd)`. -/
def connected_controller (cfg : Config) (stack : Nat → Nat) (sockfd : Int) (bytes : List Nat)
    (rc : Int) (fuel : Nat) (g : Gateway) : Except Fault Gateway :=
  match recvLoop cfg bytes (Reader.start cfg stack, g) with
  | .error e => .error e
  | .ok (_, g1) =>
    let g2 := if rc = -1 then { g1 with log := g1.log ++ [Event.perror_recv] } else g1
    match forU8 (MY_GATEWAY_MAX_CLIENTS g2) (unregisterBody sockfd) fuel 0 g2 with
    | .error e => .error e
    | .ok (_, g3) => .ok { g3 with log := g3.log ++ [Event.close sockfd] }

/-! ## MQTT bridge -/

/-- The function `mqtt_message_callback` for a message on `topic` with `payload`. -/
def mqtt_message_callback (cfg : Config) (sendResult : Nat → SendResult) (topic payload : List Nat)
    (fuel : Nat) (g : Gateway) : Except Fault Gateway :=
  let parsed := cfg.protocolMQTTParse cfg.newMyMessage topic payload
  let msg := parsed.2
  let bad : Gateway := { g with log := g.log ++ [Event.debug_bad_message] }
  if parsed.1 then
    if msg.destination != 0 && msg.sensor != 0 && msg.type != 255 then
      let g1 := push_back g msg
      let ethernetMsg := cfg.protocolFormat msg
      match forU8 (MY_GATEWAY_MAX_CLIENTS g1) (sendBody sendResult ethernetMsg) fuel 0 g1 with
      | .error e => .error e
      | .ok (_, g2) => .ok g2
    else .ok bad
  else .ok bad

/-- How a thread function ends: it returns, or it terminates the process with `exit`. -/
inductive ThreadEnd where
  | returned
  | processExit (code : Int)
deriving DecidableEq, Repr

/-- The function `mqtt_thread`. `mosqOk` says whether `mosquitto_new` returned a handle,
`connectRc` is the value `mosquitto_connect` returned. The library's network loop is the single
event `mosquitto_loop_forever`; what it does inside (calling the callbacks) is not part of
this function. -/
def mqtt_thread (mosqOk : Bool) (connectRc : Int) (g : Gateway) : ThreadEnd × Gateway :=
  let g1 := { g with log := g.log ++ [Event.mosquitto_lib_init, Event.mosquitto_new] }
  if !mosqOk then
    (.processExit 1, { g1 with log := g1.log ++ [Event.fprintf_stderr, Event.exit 1] })
  else
    let g2 := { g1 with log := g1.log ++ [Event.mosquitto_connect] }
    if connectRc ≠ 0 then
      (.processExit 1, { g2 with log := g2.log ++ [Event.fprintf_stderr, Event.exit 1] })
    else
      (.returned, { g2 with log := g2.log ++
        [Event.mosquitto_loop_forever, Event.mosquitto_destroy, Event.mosquitto_lib_cleanup] })

/-! ## Vocabulary of the statements -/

/-- The `send` calls recorded in a log, as pairs of handle and bytes written. -/
def sends : List Event → List (Int × List Nat)
  | [] => []
  | Event.send fd data :: more => (fd, data) :: sends more
  | _ :: more => sends more

/-- The `mosquitto_publish` calls recorded in a log, as pairs of topic and payload. -/
def publishes : List Event → List (List Nat × List Nat)
  | [] => []
  | Event.mosquitto_publish topic payload :: more => (topic, payload) :: publishes more
  | _ :: more => publishes more

/-- Whether the `send` for slot `i`, holding `fd`, is made and fails with `EAGAIN`. -/
def clogged (sendResult : Nat → SendResult) (i : Nat) (fd : Int) : Prop :=
  fd ≠ -1 ∧ (sendResult i).ret = -1 ∧ (sendResult i).errno = EAGAIN

instance (sendResult : Nat → SendResult) (i : Nat) (fd : Int) :
    Decidable (clogged sendResult i fd) := by
  unfold clogged; infer_instance

/-- The handle slot `i` holds after the fan-out loop went over it. -/
def slotAfterSend (sendResult : Nat → SendResult) (i : Nat) (fd : Int) : Int :=
  if clogged sendResult i fd then -1 else fd

/-- The calls the fan-out loop makes for slot `i`. -/
def slotEvents (sendResult : Nat → SendResult) (frame : List Nat) (i : Nat) (fd : Int) :
    List Event :=
  if fd = -1 then []
  else if (sendResult i).ret = -1 then
    if (sendResult i).errno = EAGAIN then
      [Event.send fd frame, Event.shutdown fd, Event.perror_send]
    else [Event.send fd frame, Event.perror_send]
  else [Event.send fd frame]

/-- The slots `i, i+1, ..` after the fan-out loop went over them. -/
def tableAfterSend (sendResult : Nat → SendResult) : Nat → List Int → List Int
  | _, [] => []
  | i, fd :: rest => slotAfterSend sendResult i fd :: tableAfterSend sendResult (i + 1) rest

/-- The calls the fan-out loop makes for the slots `i, i+1, ..`. -/
def fanOutEvents (sendResult : Nat → SendResult) (frame : List Nat) : Nat → List Int → List Event
  | _, [] => []
  | i, fd :: rest =>
    slotEvents sendResult frame i fd ++ fanOutEvents sendResult frame (i + 1) rest


/-! ## A consumer of the inbound queue -/

/-- A consumer making up to `k` rounds of "if `gatewayTransportAvailable()` then
`gatewayTransportReceive()`", stopping at the first round in which nothing is available.
The result is the list of messages received, in the order of the calls. -/
def receiveWhileAvailable : Nat → Gateway → Except Fault (List MyMessage × Gateway)
  | 0, g => .ok ([], g)
  | k + 1, g =>
    let avail := gatewayTransportAvailable g
    if avail.1 then
      match gatewayTransportReceive avail.2 with
      | .error e => .error e
      | .ok (m, g1) =>
        match receiveWhileAvailable k g1 with
        | .error e => .error e
        | .ok (ms, g2) => .ok (m :: ms, g2)
    else .ok ([], avail.2)

/-! ## Lines on the wire -/

/-- The bytes of a sequence of lines, each followed by its terminator. -/
def wire : List (List Nat × Nat) → List Nat
  | [] => []
  | (line, terminator) :: more => line ++ terminator :: wire more

/-- The messages `protocolParse` yields for a sequence of lines, in order, keeping those whose
parse succeeds. As in `connected_controller`, each line is handed over as a C string and the
message object `m` given to `protocolParse` is the one the previous call left. -/
def parsedInOrder (cfg : Config) : MyMessage → List (List Nat) → List MyMessage
  | _, [] => []
  | m, line :: more =>
    let parsed := cfg.protocolParse m (cstr line)
    if parsed.1 then parsed.2 :: parsedInOrder cfg parsed.2 more
    else parsedInOrder cfg parsed.2 more

/-! ## The function `ultoa` of `utility/ultoa.cpp` -/

/-- Ways in which a run of `ultoa` can fail to produce a result. -/
inductive UltoaFault where
  /-- a loop did not finish within the fuel it was given -/
  | outOfFuel
  /-- a byte was read or written outside the memory that starts at `str` -/
  | outOfBounds
  /-- the remainder or quotient by zero was asked for -/
  | divisionByZero
deriving DecidableEq, Repr

/-- Results of runs of `ultoa` can be compared. -/
instance instDecidableEqExceptUltoaFault {α : Type} [DecidableEq α] :
    DecidableEq (Except UltoaFault α)
  | .ok a, .ok b =>
    if h : a = b then isTrue (congrArg Except.ok h)
    else isFalse (fun h1 => h (Except.ok.inj h1))
  | .error a, .error b =>
    if h : a = b then isTrue (congrArg Except.error h)
    else isFalse (fun h1 => h (Except.error.inj h1))
  | .ok _, .error _ => isFalse (fun h => Except.noConfusion h)
  | .error _, .ok _ => isFalse (fun h => Except.noConfusion h)

/-- Conversion of an integer to an `unsigned long` of `w` bits. -/
def toUnsignedLong (w : Nat) (x : Int) : Nat := (x % (2 : Int) ^ w).toNat

/-- Conversion of an unsigned value to `char` (8 bits), read as the `int` it is promoted to;
`charSigned` says whether plain `char` is a signed type on the platform. -/
def toChar (charSigned : Bool) (n : Nat) : Int :=
  if charSigned && decide (128 ≤ n % 256) then ((n % 256 : Nat) : Int) - 256
  else ((n % 256 : Nat) : Int)

/-- The byte kept when an `int` is assigned to a `char` object. -/
def byteOf (x : Int) : Nat := (x % 256).toNat

/-- The assignment `*(str + i) = c`, inside the memory `mem` that starts at `str`. -/
def store (mem : List Nat) (i : Nat) (c : Nat) : Except UltoaFault (List Nat) :=
  if i < mem.length then .ok (mem.set i c) else .error .outOfBounds

/-- The read `*(str + i)`, inside the memory `mem` that starts at `str`. -/
def load (mem : List Nat) (i : Nat) : Except UltoaFault Nat :=
  match mem[i]? with
  | some c => .ok c
  | none => .error .outOfBounds

/-- The `do { .. } while (0 < value)` loop of `ultoa`: one digit of `value` is written at
offset `sp` per pass, least significant first. The result is the final `sp` and the memory.
`w` is the width of `long`; `radix` is converted to `unsigned long` for `%` and `/`. -/
def ultoaDigits (w : Nat) (charSigned : Bool) (radix : Int) :
    Nat → Nat → Nat → List Nat → Except UltoaFault (Nat × List Nat)
  | 0, _, _, _ => .error .outOfFuel
  | fuel + 1, value, sp, mem =>
    if toUnsignedLong w radix = 0 then .error .divisionByZero
    else
      let rem := toChar charSigned (value % toUnsignedLong w radix)
      let value1 := value / toUnsignedLong w radix
      let c : Int := if 10 > rem then 48 + rem else 65 + rem - 10
      match store mem sp (byteOf c) with
      | .error e => .error e
      | .ok mem1 =>
        if 0 < value1 then ultoaDigits w charSigned radix fuel value1 (sp + 1) mem1
        else .ok (sp + 1, mem1)

/-- The loop `while (sp2 < sp)` of `ultoa` that swaps `*sp2++` and `*sp--`. The offset `sp` is
decremented only while `sp2 < sp`, so it never goes below the start of the memory. -/
def ultoaReverse : Nat → Nat → Nat → List Nat → Except UltoaFault (List Nat)
  | 0, _, _, _ => .error .outOfFuel
  | fuel + 1, sp2, sp, mem =>
    if sp2 < sp then
      match load mem sp2 with
      | .error e => .error e
      | .ok tmp =>
        match load mem sp with
        | .error e => .error e
        | .ok c =>
          match store mem sp2 c with
          | .error e => .error e
          | .ok mem1 =>
            match store mem1 sp tmp with
            | .error e => .error e
            | .ok mem2 => ultoaReverse fuel (sp2 + 1) (sp - 1) mem2
    else .ok mem

/-- The function `ultoa(num, str, radix)`, for a `long` of `w` bits. `str` is the memory that
starts at the pointer `str`. The result is the offset from `str` of the pointer returned and
the memory afterwards. The negation `-num` is the mathematical one, then converted to
`unsigned long` (for `LONG_MIN` the C negation is undefined). -/
def ultoa (w : Nat) (charSigned : Bool) (num : Int) (str : List Nat) (radix : Int)
    (fuel : Nat) : Except UltoaFault (Nat × List Nat) :=
  let start : Except UltoaFault (Nat × Nat × List Nat) :=
    if 10 = radix ∧ 0 > num then
      match store str 0 45 with
      | .error e => .error e
      | .ok mem => .ok (toUnsignedLong w (-num), 1, mem)
    else .ok (toUnsignedLong w num, 0, str)
  match start with
  | .error e => .error e
  | .ok (value, sp2, mem) =>
    match ultoaDigits w charSigned radix fuel value sp2 mem with
    | .error e => .error e
    | .ok (sp, mem1) =>
      match store mem1 sp 0 with
      | .error e => .error e
      | .ok mem2 =>
        match ultoaReverse fuel sp2 (sp - 1) mem2 with
        | .error e => .error e
        | .ok mem3 => .ok (0, mem3)

/-! ## Numerals in a radix -/

/-- The character of the digit `d`: `'0'`-`'9'`, then `'A'`-`'Z'`. -/
def digitChar (d : Nat) : Nat := if d < 10 then 48 + d else 65 + (d - 10)

/-- The base-`radix` representation of `num`, most significant digit first, without leading
zero, `"0"` for zero. -/
def representation (radix num : Nat) : List Nat :=
  if num = 0 then [48] else ((Nat.digits radix num).reverse).map digitChar

/-- The digits of `num` in base `radix`, least significant first, a single `0` for zero: the
order in which the digit loop of `ultoa` produces them. -/
def leastFirst (radix num : Nat) : List Nat :=
  if num = 0 then [0] else Nat.digits radix num

/-- The value of a digit character, if it is one of `'0'`-`'9'`, `'A'`-`'Z'`. -/
def digitValue (c : Nat) : Option Nat :=
  if 48 ≤ c ∧ c ≤ 57 then some (c - 48)
  else if 65 ≤ c ∧ c ≤ 90 then some (c - 65 + 10)
  else none

/-- Read digit characters from left to right in base `radix`, starting from `acc`. -/
def readDigits (radix : Nat) : Nat → List Nat → Option Nat
  | acc, [] => some acc
  | acc, c :: rest =>
    match digitValue c with
    | some v => if v < radix then readDigits radix (acc * radix + v) rest else none
    | none => none

/-- Read a non-empty string of digit characters back as a number in base `radix`. -/
def readBack (radix : Nat) (s : List Nat) : Option Nat :=
  if s = [] then none else readDigits radix 0 s

/-! ## An example codec

The statements below hold for every codec. To run the functions on concrete inputs an example
codec is fixed here: `node;sensor;command;ack;type;payload` lines of decimal fields, and topics
`prefix/node/sensor/command/ack/type`. -/

/-- Split a byte string at every occurrence of the byte `sep`. -/
def splitAt (sep : Nat) : List Nat → List (List Nat)
  | [] => [[]]
  | b :: rest =>
    if b = sep then [] :: splitAt sep rest
    else
      match splitAt sep rest with
      | [] => [[b]]
      | field :: fields => (b :: field) :: fields

/-- Read a non-empty string of ASCII digits as a decimal number. -/
def decimal (s : List Nat) : Option Nat :=
  if s = [] then none
  else if s.all (fun b => decide (48 ≤ b) && decide (b ≤ 57)) then
    some (s.foldl (fun acc b => 10 * acc + (b - 48)) 0)
  else none

/-- Build a message from five decimal fields and a payload, if all five are numbers. -/
def exampleMessage (a b c d e p : List Nat) : Option MyMessage :=
  match decimal a, decimal b, decimal c, decimal d, decimal e with
  | some n, some s, some k, some f, some t =>
    some { destination := n, sensor := s, command := k, ack := f, type := t, payload := p }
  | _, _, _, _, _ => none

/-- The example line parser; on failure the message object is left as it was. -/
def exampleParse (m0 : MyMessage) (s : List Nat) : Bool × MyMessage :=
  match splitAt 59 s with
  | [a, b, c, d, e, p] =>
    match exampleMessage a b c d e p with
    | some m => (true, m)
    | none => (false, m0)
  | _ => (false, m0)

/-- The example topic parser. -/
def exampleMQTTParse (m0 : MyMessage) (topic payload : List Nat) : Bool × MyMessage :=
  match splitAt 47 topic with
  | [_, a, b, c, d, e] =>
    match exampleMessage a b c d e payload with
    | some m => (true, m)
    | none => (false, m0)
  | _ => (false, m0)

/-- The decimal ASCII digits of a number. -/
def digits (n : Nat) : List Nat := (Nat.toDigits 10 n).map Char.toNat

/-- The example line formatter. -/
def exampleFormat (m : MyMessage) : List Nat :=
  digits m.destination ++ [59] ++ digits m.sensor ++ [59] ++ digits m.command ++ [59] ++
    digits m.ack ++ [59] ++ digits m.type ++ [59] ++ m.payload ++ [10]

/-- The example topic formatter. -/
def exampleTopic (pre : List Nat) (m : MyMessage) : List Nat :=
  pre ++ [47] ++ digits m.destination ++ [47] ++ digits m.sensor ++ [47] ++ digits m.command ++
    [47] ++ digits m.ack ++ [47] ++ digits m.type

/-- The example configuration: the example codec, MQTT enabled, topic prefix `out`, and a
line buffer of `maxLen` bytes. -/
def exampleConfig (maxLen : Nat) : Config :=
  { protocolParse := exampleParse,
    protocolFormat := exampleFormat,
    protocolFormatMQTTTopic := exampleTopic,
    protocolMQTTParse := exampleMQTTParse,
    getString := fun m => m.payload,
    newMyMessage := { destination := 0, sensor := 0, command := 0, ack := 0, type := 0, payload := [] },
    MY_GATEWAY_MQTT_CLIENT := true,
    MY_MQTT_PUBLISH_TOPIC_PREFIX := [111, 117, 116],
    MY_GATEWAY_MAX_RECEIVE_LENGTH := maxLen }

/-- The message of the line `1;0;1;0;0;22.5`. -/
def exampleMsg : MyMessage :=
  { destination := 1, sensor := 0, command := 1, ack := 0, type := 0, payload := [50, 50, 46, 53] }

/-- A gateway with the given client table, an empty queue and an empty log. -/
def exampleGateway (controllers : List Int) : Gateway :=
  { controllers := controllers, _ethernetMsg := (exampleConfig 100).newMyMessage,
    ethernetMsg_q := [], log := [] }

/-! ## The `uint8_t` loop -/

theorem forU8_stop {σ : Type} (n : Nat) (body : Nat → σ → Except Fault (σ × Bool))
    (fuel i : Nat) (s : σ) (h : ¬ i < n) : forU8 n body (fuel + 1) i s = .ok (i, s) := by
  simp [forU8, h]

theorem forU8_break {σ : Type} (n : Nat) (body : Nat → σ → Except Fault (σ × Bool))
    (fuel i : Nat) (s s1 : σ) (h : i < n) (hb : body i s = .ok (s1, true)) :
    forU8 n body (fuel + 1) i s = .ok (i, s1) := by
  simp [forU8, h, hb]

theorem forU8_next {σ : Type} (n : Nat) (body : Nat → σ → Except Fault (σ × Bool))
    (fuel i : Nat) (s s1 : σ) (h : i < n) (hn : n ≤ 255) (hb : body i s = .ok (s1, false)) :
    forU8 n body (fuel + 1) i s = forU8 n body fuel (i + 1) s1 := by
  have hmod : (i + 1) % 256 = i + 1 := Nat.mod_eq_of_lt (by omega)
  simp [forU8, h, hb, hmod]

/-! ## Slots of the table -/

theorem getElem?_at_length {α : Type} (pre rest : List α) (x : α) :
    (pre ++ x :: rest)[pre.length]? = some x := by
  induction pre with
  | nil => simp
  | cons a t ih => simpa using ih

theorem set_at_length {α : Type} (pre rest : List α) (x v : α) :
    (pre ++ x :: rest).set pre.length v = pre ++ v :: rest := by
  induction pre with
  | nil => simp
  | cons a t _ => simp

/-! ## The fan-out loop -/

theorem sendBody_at (sendResult : Nat → SendResult) (frame : List Nat) (pre rest : List Int)
    (fd : Int) (g : Gateway) (hg : g.controllers = pre ++ fd :: rest) :
    sendBody sendResult frame pre.length g =
      .ok ({ g with controllers := pre ++ slotAfterSend sendResult pre.length fd :: rest,
                    log := g.log ++ slotEvents sendResult frame pre.length fd }, false) := by
  have hget : g.controllers[pre.length]? = some fd := by
    rw [hg]; exact getElem?_at_length pre rest fd
  have hset : ∀ v : Int, g.controllers.set pre.length v = pre ++ v :: rest := by
    intro v; rw [hg]; exact set_at_length pre rest fd v
  unfold sendBody
  rw [hget]
  obtain ⟨c, e, q, l⟩ := g
  simp only at hg hset
  by_cases h1 : fd = -1
  · simp [slotAfterSend, slotEvents, clogged, h1, hg]
  · by_cases h2 : (sendResult pre.length).ret = -1
    · by_cases h3 : (sendResult pre.length).errno = EAGAIN
      · simp [slotAfterSend, slotEvents, clogged, h1, h2, h3, hset]
      · simp [slotAfterSend, slotEvents, clogged, h1, h2, h3, hg]
    · simp [slotAfterSend, slotEvents, clogged, h1, h2, hg]

theorem sendLoop_spec (sendResult : Nat → SendResult) (frame : List Nat) :
    ∀ (todo pre : List Int) (fuel n : Nat) (g : Gateway),
      g.controllers = pre ++ todo → n = pre.length + todo.length → n ≤ 255 →
      todo.length < fuel →
      forU8 n (sendBody sendResult frame) fuel pre.length g =
        .ok (n, { g with controllers := pre ++ tableAfterSend sendResult pre.length todo,
                         log := g.log ++ fanOutEvents sendResult frame pre.length todo }) := by
  intro todo
  induction todo with
  | nil =>
    intro pre fuel n g hg hn _ hfuel
    obtain ⟨f, rfl⟩ : ∃ f, fuel = f + 1 := ⟨fuel - 1, by simp at hfuel; omega⟩
    rw [forU8_stop _ _ _ _ _ (by simp [hn])]
    obtain ⟨c, e, q, l⟩ := g
    simp only at hg
    simp [tableAfterSend, fanOutEvents, hg, hn]
  | cons fd rest ih =>
    intro pre fuel n g hg hn hle hfuel
    obtain ⟨f, rfl⟩ : ∃ f, fuel = f + 1 := ⟨fuel - 1, by simp at hfuel; omega⟩
    have hi : pre.length < n := by simp [hn]
    rw [forU8_next _ _ _ _ _ _ hi hle (sendBody_at sendResult frame pre rest fd g hg)]
    have := ih (pre ++ [slotAfterSend sendResult pre.length fd]) f n
      { g with controllers := pre ++ slotAfterSend sendResult pre.length fd :: rest,
               log := g.log ++ slotEvents sendResult frame pre.length fd }
      (by simp) (by simp [hn]; omega) hle (by simp at hfuel; omega)
    simp only [List.length_append, List.length_singleton] at this
    rw [this]
    simp [tableAfterSend, fanOutEvents]

theorem sends_append (a b : List Event) : sends (a ++ b) = sends a ++ sends b := by
  induction a with
  | nil => simp [sends]
  | cons e t ih => cases e <;> simp [sends, ih]

theorem publishes_append (a b : List Event) : publishes (a ++ b) = publishes a ++ publishes b := by
  induction a with
  | nil => simp [publishes]
  | cons e t ih => cases e <;> simp [publishes, ih]

theorem sends_slotEvents (sendResult : Nat → SendResult) (frame : List Nat) (i : Nat) (fd : Int) :
    sends (slotEvents sendResult frame i fd) = if fd = -1 then [] else [(fd, frame)] := by
  unfold slotEvents
  split_ifs <;> simp [sends]

theorem publishes_slotEvents (sendResult : Nat → SendResult) (frame : List Nat) (i : Nat)
    (fd : Int) : publishes (slotEvents sendResult frame i fd) = [] := by
  unfold slotEvents
  split_ifs <;> simp [publishes]

theorem sends_fanOutEvents (sendResult : Nat → SendResult) (frame : List Nat) :
    ∀ (table : List Int) (i : Nat),
      sends (fanOutEvents sendResult frame i table) =
        (table.filter (fun fd => decide (fd ≠ -1))).map (fun fd => (fd, frame)) := by
  intro table
  induction table with
  | nil => intro i; simp [fanOutEvents, sends]
  | cons fd rest ih =>
    intro i
    rw [fanOutEvents, sends_append, sends_slotEvents, ih]
    by_cases h : fd = -1 <;> simp [h]

theorem publishes_fanOutEvents (sendResult : Nat → SendResult) (frame : List Nat) :
    ∀ (table : List Int) (i : Nat), publishes (fanOutEvents sendResult frame i table) = [] := by
  intro table
  induction table with
  | nil => intro i; simp [fanOutEvents, publishes]
  | cons fd rest ih =>
    intro i
    rw [fanOutEvents, publishes_append, publishes_slotEvents, ih]
    rfl

theorem tableAfterSend_getElem? (sendResult : Nat → SendResult) :
    ∀ (table : List Int) (i j : Nat),
      (tableAfterSend sendResult i table)[j]? =
        (table[j]?).map (slotAfterSend sendResult (i + j)) := by
  intro table
  induction table with
  | nil => intro i j; simp [tableAfterSend]
  | cons fd rest ih =>
    intro i j
    cases j with
    | zero => simp [tableAfterSend]
    | succ k =>
      simp only [tableAfterSend, List.getElem?_cons_succ]
      rw [ih (i + 1) k]
      have : i + 1 + k = i + (k + 1) := by omega
      rw [this]

theorem tableAfterSend_length (sendResult : Nat → SendResult) :
    ∀ (table : List Int) (i : Nat), (tableAfterSend sendResult i table).length = table.length := by
  intro table
  induction table with
  | nil => intro i; simp [tableAfterSend]
  | cons fd rest ih => intro i; simp [tableAfterSend, ih]

theorem slotEvents_mem_fanOutEvents (sendResult : Nat → SendResult) (frame : List Nat)
    (e : Event) :
    ∀ (table : List Int) (i j : Nat) (fd : Int), table[j]? = some fd →
      e ∈ slotEvents sendResult frame (i + j) fd → e ∈ fanOutEvents sendResult frame i table := by
  intro table
  induction table with
  | nil => intro i j fd h; simp at h
  | cons x rest ih =>
    intro i j fd h he
    cases j with
    | zero =>
      simp at h
      subst h
      simp only [fanOutEvents, List.mem_append]
      left
      exact he
    | succ k =>
      simp only [List.getElem?_cons_succ] at h
      simp only [fanOutEvents, List.mem_append]
      right
      apply ih (i + 1) k fd h
      have : i + 1 + k = i + (k + 1) := by omega
      rw [this]
      exact he

/-- The whole effect of `gatewayTransportSend` on a table whose size fits the `uint8_t` counter. -/
theorem gatewayTransportSend_eq (cfg : Config) (sendResult : Nat → SendResult)
    (publishResult : Int) (message : MyMessage) (fuel : Nat) (g : Gateway)
    (hsize : MY_GATEWAY_MAX_CLIENTS g ≤ 255) (hfuel : MY_GATEWAY_MAX_CLIENTS g < fuel) :
    gatewayTransportSend cfg sendResult publishResult message fuel g =
      .ok (true,
        { g with
          controllers := tableAfterSend sendResult 0 g.controllers,
          log := g.log ++ (fanOutEvents sendResult (cfg.protocolFormat message) 0 g.controllers ++
            if cfg.MY_GATEWAY_MQTT_CLIENT then
              [Event.mosquitto_publish
                (cfg.protocolFormatMQTTTopic cfg.MY_MQTT_PUBLISH_TOPIC_PREFIX message)
                (cfg.getString message)]
            else []) }) := by
  unfold MY_GATEWAY_MAX_CLIENTS at hsize hfuel
  have h := sendLoop_spec sendResult (cfg.protocolFormat message) g.controllers [] fuel
    g.controllers.length g (by simp) (by simp) hsize hfuel
  simp only [List.length_nil, List.nil_append] at h
  unfold gatewayTransportSend MY_GATEWAY_MAX_CLIENTS
  simp only [h]
  split_ifs <;> simp

/-! ## Claims about `gatewayTransportSend` -/

/-- C3: for every message, client table (of at most 255 slots, so that the `uint8_t` counter
covers it) and outcome of the writes and of the publish, `gatewayTransportSend` returns `true`;
the writes it makes are exactly one write of `protocolFormat(message)` per slot holding a
handle other than `-1`, in slot order, and none for a slot holding `-1`; and it makes exactly
one publish, on the topic `protocolFormatMQTTTopic(prefix, message)`, when MQTT is enabled
(and none otherwise). -/
theorem gatewayTransportSend_fans_out (cfg : Config) (sendResult : Nat → SendResult)
    (publishResult : Int) (message : MyMessage) (fuel : Nat) (g : Gateway)
    (hsize : MY_GATEWAY_MAX_CLIENTS g ≤ 255) (hfuel : MY_GATEWAY_MAX_CLIENTS g < fuel) :
    ∃ g1 added, gatewayTransportSend cfg sendResult publishResult message fuel g = .ok (true, g1) ∧
      g1.log = g.log ++ added ∧
      sends added =
        (g.controllers.filter (fun fd => decide (fd ≠ -1))).map
          (fun fd => (fd, cfg.protocolFormat message)) ∧
      publishes added =
        (if cfg.MY_GATEWAY_MQTT_CLIENT then
          [(cfg.protocolFormatMQTTTopic cfg.MY_MQTT_PUBLISH_TOPIC_PREFIX message,
            cfg.getString message)]
        else []) := by
  refine ⟨_, _, gatewayTransportSend_eq cfg sendResult publishResult message fuel g hsize hfuel,
    rfl, ?_, ?_⟩
  · rw [sends_append, sends_fanOutEvents]
    split_ifs <;> simp [sends]
  · rw [publishes_append, publishes_fanOutEvents]
    split_ifs <;> simp [publishes]

/-- C3 at a table of two connected clients and one free slot, with the first write failing. -/
theorem gatewayTransportSend_fans_out_witness :
    ∃ g1 added,
      gatewayTransportSend (exampleConfig 100)
        (fun i => if i = 0 then ⟨-1, 32⟩ else ⟨15, 0⟩) (-1) exampleMsg 4
        (exampleGateway [5, -1, 7]) = .ok (true, g1) ∧
      g1.log = (exampleGateway [5, -1, 7]).log ++ added ∧
      sends added =
        ((exampleGateway [5, -1, 7]).controllers.filter (fun fd => decide (fd ≠ -1))).map
          (fun fd => (fd, (exampleConfig 100).protocolFormat exampleMsg)) ∧
      publishes added =
        (if (exampleConfig 100).MY_GATEWAY_MQTT_CLIENT then
          [((exampleConfig 100).protocolFormatMQTTTopic
              (exampleConfig 100).MY_MQTT_PUBLISH_TOPIC_PREFIX exampleMsg,
            (exampleConfig 100).getString exampleMsg)]
        else []) :=
  gatewayTransportSend_fans_out (exampleConfig 100)
    (fun i => if i = 0 then ⟨-1, 32⟩ else ⟨15, 0⟩) (-1) exampleMsg 4
    (exampleGateway [5, -1, 7]) (by decide) (by decide)

/-- C4: when the write to a connected peer (slot `i`, handle `fd`) fails with `EAGAIN`,
`gatewayTransportSend` shuts that connection down and the slot holds `-1` afterwards; the frame
is still written once to every connected slot; and every slot whose own write did not fail
with `EAGAIN` holds after the call the handle it held before. -/
theorem gatewayTransportSend_backpressure (cfg : Config) (sendResult : Nat → SendResult)
    (publishResult : Int) (message : MyMessage) (fuel : Nat) (g : Gateway)
    (hsize : MY_GATEWAY_MAX_CLIENTS g ≤ 255) (hfuel : MY_GATEWAY_MAX_CLIENTS g < fuel)
    (i : Nat) (fd : Int) (hslot : g.controllers[i]? = some fd) (hfd : fd ≠ -1)
    (hret : (sendResult i).ret = -1) (herrno : (sendResult i).errno = EAGAIN) :
    ∃ g1 added, gatewayTransportSend cfg sendResult publishResult message fuel g = .ok (true, g1) ∧
      g1.log = g.log ++ added ∧
      Event.shutdown fd ∈ added ∧
      g1.controllers[i]? = some (-1) ∧
      sends added =
        (g.controllers.filter (fun h => decide (h ≠ -1))).map
          (fun h => (h, cfg.protocolFormat message)) ∧
      (∀ j h, g.controllers[j]? = some h →
        ¬ (h ≠ -1 ∧ (sendResult j).ret = -1 ∧ (sendResult j).errno = EAGAIN) →
        g1.controllers[j]? = some h) := by
  refine ⟨_, _, gatewayTransportSend_eq cfg sendResult publishResult message fuel g hsize hfuel,
    rfl, ?_, ?_, ?_, ?_⟩
  · apply List.mem_append_left
    apply slotEvents_mem_fanOutEvents sendResult _ _ g.controllers 0 i fd hslot
    simp [slotEvents, hfd, hret, herrno]
  · simp only [tableAfterSend_getElem?, hslot, Option.map_some', Nat.zero_add]
    simp [slotAfterSend, clogged, hfd, hret, herrno]
  · rw [sends_append, sends_fanOutEvents]
    split_ifs <;> simp [sends]
  · intro j h hj hnot
    simp only [tableAfterSend_getElem?, hj, Option.map_some', Nat.zero_add]
    simp [slotAfterSend, clogged, hnot]

/-- C4 at a table of three connected clients whose middle one is clogged. -/
theorem gatewayTransportSend_backpressure_witness :
    ∃ g1 added,
      gatewayTransportSend (exampleConfig 100)
        (fun j => if j = 1 then ⟨-1, EAGAIN⟩ else ⟨15, 0⟩) 0 exampleMsg 4
        (exampleGateway [5, 6, 7]) = .ok (true, g1) ∧
      g1.log = (exampleGateway [5, 6, 7]).log ++ added ∧
      Event.shutdown 6 ∈ added ∧
      g1.controllers[1]? = some (-1) ∧
      sends added =
        ((exampleGateway [5, 6, 7]).controllers.filter (fun h => decide (h ≠ -1))).map
          (fun h => (h, (exampleConfig 100).protocolFormat exampleMsg)) ∧
      (∀ j h, (exampleGateway [5, 6, 7]).controllers[j]? = some h →
        ¬ (h ≠ -1 ∧ ((fun j => if j = 1 then (⟨-1, EAGAIN⟩ : SendResult) else ⟨15, 0⟩) j).ret = -1 ∧
          ((fun j => if j = 1 then (⟨-1, EAGAIN⟩ : SendResult) else ⟨15, 0⟩) j).errno = EAGAIN) →
        g1.controllers[j]? = some h) :=
  gatewayTransportSend_backpressure (exampleConfig 100)
    (fun j => if j = 1 then ⟨-1, EAGAIN⟩ else ⟨15, 0⟩) 0 exampleMsg 4
    (exampleGateway [5, 6, 7]) (by decide) (by decide) 1 6 (by decide) (by decide)
    (by decide) (by decide)

/-- C9, as the code behaves: a write that fails with an `errno` other than `EAGAIN` is only
reported with `perror`. At the table `[5]` with the write failing with `EPIPE` (32) the slot
still holds the handle `5` after the call, it is not `-1`, and no `shutdown` is made. -/
theorem gatewayTransportSend_other_error_keeps_slot :
    gatewayTransportSend (exampleConfig 100) (fun _ => ⟨-1, 32⟩) 0 exampleMsg 2
        (exampleGateway [5]) =
      .ok (true,
        { exampleGateway [5] with
          log := [Event.send 5 [49, 59, 48, 59, 49, 59, 48, 59, 48, 59, 50, 50, 46, 53, 10],
                   Event.perror_send,
                   Event.mosquitto_publish [111, 117, 116, 47, 49, 47, 48, 47, 49, 47, 48, 47, 48]
                     [50, 50, 46, 53]] }) ∧
    ¬ ∃ g1, gatewayTransportSend (exampleConfig 100) (fun _ => ⟨-1, 32⟩) 0 exampleMsg 2
        (exampleGateway [5]) = .ok (true, g1) ∧ g1.controllers[0]? = some (-1) := by
  have h : gatewayTransportSend (exampleConfig 100) (fun _ => ⟨-1, 32⟩) 0 exampleMsg 2
        (exampleGateway [5]) =
      .ok (true,
        { exampleGateway [5] with
          log := [Event.send 5 [49, 59, 48, 59, 49, 59, 48, 59, 48, 59, 50, 50, 46, 53, 10],
                   Event.perror_send,
                   Event.mosquitto_publish [111, 117, 116, 47, 49, 47, 48, 47, 49, 47, 48, 47, 48]
                     [50, 50, 46, 53]] }) := by decide
  refine ⟨h, ?_⟩
  rintro ⟨g1, h1, h2⟩
  rw [h] at h1
  injection h1 with h1
  injection h1 with _ h1
  subst h1
  revert h2
  decide

/-- C9 amended: when the write to a connected peer (slot `i`, handle `fd`) fails with an
`errno` other than `EAGAIN`, `gatewayTransportSend` reports the error with `perror` and the
slot still holds `fd` after the call; the frame is still written once to every connected
slot and the function returns `true`. -/
theorem gatewayTransportSend_other_error (cfg : Config) (sendResult : Nat → SendResult)
    (publishResult : Int) (message : MyMessage) (fuel : Nat) (g : Gateway)
    (hsize : MY_GATEWAY_MAX_CLIENTS g ≤ 255) (hfuel : MY_GATEWAY_MAX_CLIENTS g < fuel)
    (i : Nat) (fd : Int) (hslot : g.controllers[i]? = some fd) (hfd : fd ≠ -1)
    (hret : (sendResult i).ret = -1) (herrno : (sendResult i).errno ≠ EAGAIN) :
    ∃ g1 added, gatewayTransportSend cfg sendResult publishResult message fuel g = .ok (true, g1) ∧
      g1.log = g.log ++ added ∧
      Event.perror_send ∈ added ∧
      g1.controllers[i]? = some fd ∧
      sends added =
        (g.controllers.filter (fun h => decide (h ≠ -1))).map
          (fun h => (h, cfg.protocolFormat message)) := by
  refine ⟨_, _, gatewayTransportSend_eq cfg sendResult publishResult message fuel g hsize hfuel,
    rfl, ?_, ?_, ?_⟩
  · apply List.mem_append_left
    apply slotEvents_mem_fanOutEvents sendResult _ _ g.controllers 0 i fd hslot
    simp [slotEvents, hfd, hret, herrno]
  · simp only [tableAfterSend_getElem?, hslot, Option.map_some', Nat.zero_add]
    simp [slotAfterSend, clogged, herrno]
  · rw [sends_append, sends_fanOutEvents]
    split_ifs <;> simp [sends]

/-- C9 amended, at a table of two connected clients whose first write fails with `EPIPE`. -/
theorem gatewayTransportSend_other_error_witness :
    ∃ g1 added,
      gatewayTransportSend (exampleConfig 100)
        (fun j => if j = 0 then ⟨-1, 32⟩ else ⟨15, 0⟩) 0 exampleMsg 3
        (exampleGateway [5, 6]) = .ok (true, g1) ∧
      g1.log = (exampleGateway [5, 6]).log ++ added ∧
      Event.perror_send ∈ added ∧
      g1.controllers[0]? = some 5 ∧
      sends added =
        ((exampleGateway [5, 6]).controllers.filter (fun h => decide (h ≠ -1))).map
          (fun h => (h, (exampleConfig 100).protocolFormat exampleMsg)) :=
  gatewayTransportSend_other_error (exampleConfig 100)
    (fun j => if j = 0 then ⟨-1, 32⟩ else ⟨15, 0⟩) 0 exampleMsg 3
    (exampleGateway [5, 6]) (by decide) (by decide) 0 5 (by decide) (by decide)
    (by decide) (by decide)

/-! ## Claims about the inbound queue -/

theorem foldl_push_back (ms : List MyMessage) :
    ∀ g : Gateway, ms.foldl push_back g = { g with ethernetMsg_q := g.ethernetMsg_q ++ ms } := by
  induction ms with
  | nil => intro g; simp
  | cons m t ih =>
    intro g
    rw [List.foldl_cons, ih]
    simp [push_back]

theorem receiveWhileAvailable_eq :
    ∀ (k : Nat) (g : Gateway), ∃ g1,
      receiveWhileAvailable k g = .ok (g.ethernetMsg_q.take k, g1) ∧
      g1.ethernetMsg_q = g.ethernetMsg_q.drop k ∧ g1.controllers = g.controllers ∧
      g1.log = g.log := by
  intro k
  induction k with
  | zero => intro g; exact ⟨g, by simp [receiveWhileAvailable]⟩
  | succ k ih =>
    intro g
    obtain ⟨c, e, q, l⟩ := g
    cases q with
    | nil =>
      exact ⟨_, by simp [receiveWhileAvailable, gatewayTransportAvailable], by simp, rfl, rfl⟩
    | cons m rest =>
      obtain ⟨g1, h1, h2, h3, h4⟩ := ih ⟨c, m, rest, l⟩
      refine ⟨g1, ?_, ?_, h3, h4⟩
      · simp only [receiveWhileAvailable, gatewayTransportAvailable, gatewayTransportReceive,
          List.isEmpty_cons, Bool.not_false, if_true, h1]
        simp
      · simpa using h2

/-- C2: the inbound queue is first-in first-out. `gatewayTransportAvailable` returns `true`
exactly when `ethernetMsg_q` is non-empty and leaves the state as it was; one
`gatewayTransportReceive` on a queue `front :: rest` returns `front` and leaves `rest`; and
after the messages `ms` were pushed, in this order, onto a gateway whose queue held `q0`, a run
of `k` receive calls, each made while messages are available, returns the first `k` messages
of `q0 ++ ms` in order (the `k`-th call returns the `k`-th of them) and leaves the other
messages queued in their order. -/
theorem inbound_queue_fifo (g : Gateway) (ms : List MyMessage) (k : Nat) :
    (gatewayTransportAvailable g).2 = g ∧
    ((gatewayTransportAvailable g).1 = true ↔ g.ethernetMsg_q ≠ []) ∧
    (∀ front rest, ∃ g1,
      gatewayTransportReceive { g with ethernetMsg_q := front :: rest } = .ok (front, g1) ∧
        g1.ethernetMsg_q = rest ∧ g1.controllers = g.controllers ∧ g1.log = g.log) ∧
    (ms.foldl push_back g).ethernetMsg_q = g.ethernetMsg_q ++ ms ∧
    ∃ g2, receiveWhileAvailable k (ms.foldl push_back g) =
        .ok ((g.ethernetMsg_q ++ ms).take k, g2) ∧
      g2.ethernetMsg_q = (g.ethernetMsg_q ++ ms).drop k ∧
      g2.controllers = g.controllers ∧ g2.log = g.log := by
  refine ⟨rfl, ?_, ?_, ?_, ?_⟩
  · cases hq : g.ethernetMsg_q <;> simp [gatewayTransportAvailable, hq]
  · intro front rest
    exact ⟨{ g with _ethernetMsg := front, ethernetMsg_q := rest },
      by simp [gatewayTransportReceive], rfl, rfl, rfl⟩
  · rw [foldl_push_back]
  · obtain ⟨g2, h1, h2, h3, h4⟩ := receiveWhileAvailable_eq k (ms.foldl push_back g)
    rw [foldl_push_back] at h1 h2 h3 h4
    exact ⟨g2, by rw [foldl_push_back]; exact h1, h2, h3, h4⟩

/-! ## The scanning loops of the acceptor and of the reader -/

theorem scanLoop_miss (body : Nat → Gateway → Except Fault (Gateway × Bool)) (P : Int → Prop)
    (hmiss : ∀ (pre rest : List Int) (fd : Int) (g : Gateway),
      g.controllers = pre ++ fd :: rest → ¬ P fd → body pre.length g = .ok (g, false)) :
    ∀ (todo pre : List Int) (fuel n : Nat) (g : Gateway),
      g.controllers = pre ++ todo → n = pre.length + todo.length → n ≤ 255 →
      todo.length < fuel → (∀ fd ∈ todo, ¬ P fd) →
      forU8 n body fuel pre.length g = .ok (n, g) := by
  intro todo
  induction todo with
  | nil =>
    intro pre fuel n g _ hn _ hfuel _
    obtain ⟨f, rfl⟩ : ∃ f, fuel = f + 1 := ⟨fuel - 1, by simp at hfuel; omega⟩
    rw [forU8_stop _ _ _ _ _ (by simp [hn])]
    simp [hn]
  | cons fd rest ih =>
    intro pre fuel n g hg hn hle hfuel hall
    obtain ⟨f, rfl⟩ : ∃ f, fuel = f + 1 := ⟨fuel - 1, by simp at hfuel; omega⟩
    have hi : pre.length < n := by simp [hn]
    rw [forU8_next _ _ _ _ _ _ hi hle (hmiss pre rest fd g hg (hall fd (by simp)))]
    have := ih (pre ++ [fd]) f n g (by simp [hg]) (by simp [hn]; omega) hle
      (by simp at hfuel; omega) (fun x hx => hall x (by simp [hx]))
    simpa using this

theorem scanLoop_hit (body : Nat → Gateway → Except Fault (Gateway × Bool)) (P : Int → Prop)
    (v : Int)
    (hmiss : ∀ (pre rest : List Int) (fd : Int) (g : Gateway),
      g.controllers = pre ++ fd :: rest → ¬ P fd → body pre.length g = .ok (g, false))
    (hhit : ∀ (pre rest : List Int) (fd : Int) (g : Gateway),
      g.controllers = pre ++ fd :: rest → P fd →
      body pre.length g = .ok ({ g with controllers := pre ++ v :: rest }, true)) :
    ∀ (mid pre rest : List Int) (fd : Int) (fuel n : Nat) (g : Gateway),
      g.controllers = pre ++ (mid ++ fd :: rest) → P fd → (∀ x ∈ mid, ¬ P x) →
      n = pre.length + (mid.length + (1 + rest.length)) → n ≤ 255 → mid.length < fuel →
      forU8 n body fuel pre.length g =
        .ok (pre.length + mid.length, { g with controllers := pre ++ (mid ++ v :: rest) }) := by
  intro mid
  induction mid with
  | nil =>
    intro pre rest fd fuel n g hg hP _ hn _ hfuel
    obtain ⟨f, rfl⟩ : ∃ f, fuel = f + 1 := ⟨fuel - 1, by omega⟩
    have hi : pre.length < n := by omega
    rw [forU8_break _ _ _ _ _ _ hi (hhit pre rest fd g (by simpa using hg) hP)]
    simp
  | cons x mid ih =>
    intro pre rest fd fuel n g hg hP hall hn hle hfuel
    obtain ⟨f, rfl⟩ : ∃ f, fuel = f + 1 := ⟨fuel - 1, by simp at hfuel; omega⟩
    have hi : pre.length < n := by omega
    rw [forU8_next _ _ _ _ _ _ hi hle
      (hmiss pre (mid ++ fd :: rest) x g (by simpa using hg) (hall x (by simp)))]
    have := ih (pre ++ [x]) rest fd f n g (by simp [hg]) hP
      (fun y hy => hall y (by simp [hy])) (by simp [hn]; omega) hle (by simp at hfuel; omega)
    simp only [List.length_append, List.length_singleton] at this
    rw [this]
    simp
    omega

theorem registerBody_miss (new_fd : Int) (pre rest : List Int) (fd : Int) (g : Gateway)
    (hg : g.controllers = pre ++ fd :: rest) (h : ¬ fd = -1) :
    registerBody new_fd pre.length g = .ok (g, false) := by
  unfold registerBody
  rw [hg, getElem?_at_length]
  simp [h]

theorem registerBody_hit (new_fd : Int) (pre rest : List Int) (fd : Int) (g : Gateway)
    (hg : g.controllers = pre ++ fd :: rest) (h : fd = -1) :
    registerBody new_fd pre.length g =
      .ok ({ g with controllers := pre ++ new_fd :: rest }, true) := by
  unfold registerBody
  rw [hg, getElem?_at_length, set_at_length]
  simp [h]

theorem unregisterBody_miss (sockfd : Int) (pre rest : List Int) (fd : Int) (g : Gateway)
    (hg : g.controllers = pre ++ fd :: rest) (h : ¬ fd = sockfd) :
    unregisterBody sockfd pre.length g = .ok (g, false) := by
  unfold unregisterBody
  rw [hg, getElem?_at_length]
  simp [h]

theorem unregisterBody_hit (sockfd : Int) (pre rest : List Int) (fd : Int) (g : Gateway)
    (hg : g.controllers = pre ++ fd :: rest) (h : fd = sockfd) :
    unregisterBody sockfd pre.length g =
      .ok ({ g with controllers := pre ++ (-1) :: rest }, true) := by
  unfold unregisterBody
  rw [hg, getElem?_at_length, set_at_length]
  simp [h]

theorem split_at_slot {α : Type} :
    ∀ (l : List α) (i : Nat) (x : α), l[i]? = some x →
      l = l.take i ++ x :: l.drop (i + 1) ∧ (l.take i).length = i ∧
      ∀ v, l.set i v = l.take i ++ v :: l.drop (i + 1) := by
  intro l
  induction l with
  | nil => intro i x h; simp at h
  | cons a t ih =>
    intro i x h
    cases i with
    | zero =>
      simp at h
      subst h
      simp
    | succ k =>
      simp only [List.getElem?_cons_succ] at h
      obtain ⟨h1, h2, h3⟩ := ih k x h
      refine ⟨?_, ?_, ?_⟩
      · simp only [List.take_succ_cons, List.drop_succ_cons, List.cons_append]
        rw [← h1]
      · simp [h2]
      · intro v
        simp only [List.set_cons_succ, List.take_succ_cons, List.drop_succ_cons, List.cons_append]
        rw [h3 v]

theorem not_mem_take_of_lowest {α : Type} :
    ∀ (l : List α) (i : Nat) (y : α), (∀ j, j < i → l[j]? ≠ some y) →
      ∀ x ∈ l.take i, ¬ x = y := by
  intro l
  induction l with
  | nil => intro i y _ x hx; simp at hx
  | cons a t ih =>
    intro i y h x hx
    cases i with
    | zero => simp at hx
    | succ k =>
      simp only [List.take_succ_cons, List.mem_cons] at hx
      rcases hx with rfl | hx
      · intro hxy
        exact h 0 (by omega) (by simp [hxy])
      · exact ih k y (fun j hj => by simpa using h (j + 1) (by omega)) x hx

/-! ## The acceptor -/

/-- One pass of `waiting_controllers` on a table without a free slot. -/
theorem waiting_controllers_pass_full (new_fd : Int) (fuel : Nat) (g : Gateway)
    (hsize : MY_GATEWAY_MAX_CLIENTS g ≤ 255) (hfuel : MY_GATEWAY_MAX_CLIENTS g < fuel)
    (hfd : new_fd ≠ -1) (hfull : ∀ fd ∈ g.controllers, fd ≠ -1) :
    waiting_controllers_pass new_fd fuel g =
      .ok { g with log := g.log ++
        [Event.pthread_create_connected_controller new_fd, Event.close new_fd] } := by
  unfold MY_GATEWAY_MAX_CLIENTS at hsize hfuel
  have h := scanLoop_miss (registerBody new_fd) (fun fd => fd = -1) (registerBody_miss new_fd)
    g.controllers [] fuel g.controllers.length
    { g with log := g.log ++ [Event.pthread_create_connected_controller new_fd] }
    (by simp) (by simp) hsize hfuel hfull
  simp only [List.length_nil] at h
  unfold waiting_controllers_pass MY_GATEWAY_MAX_CLIENTS
  simp [hfd, h]

/-- One pass of `waiting_controllers` on a table whose lowest free slot is the one after `pre`. -/
theorem waiting_controllers_pass_free (new_fd : Int) (fuel : Nat) (g : Gateway)
    (pre rest : List Int)
    (hsize : MY_GATEWAY_MAX_CLIENTS g ≤ 255) (hfuel : MY_GATEWAY_MAX_CLIENTS g < fuel)
    (hfd : new_fd ≠ -1) (hg : g.controllers = pre ++ (-1) :: rest)
    (hpre : ∀ fd ∈ pre, ¬ fd = -1) :
    waiting_controllers_pass new_fd fuel g =
      .ok { g with controllers := pre ++ new_fd :: rest,
                   log := g.log ++ [Event.pthread_create_connected_controller new_fd] } := by
  unfold MY_GATEWAY_MAX_CLIENTS at hsize hfuel
  have hlen : g.controllers.length = pre.length + (1 + rest.length) := by
    rw [hg]; simp; omega
  have h := scanLoop_hit (registerBody new_fd) (fun fd => fd = -1) new_fd
    (registerBody_miss new_fd) (registerBody_hit new_fd)
    pre [] rest (-1) fuel g.controllers.length
    { g with log := g.log ++ [Event.pthread_create_connected_controller new_fd] }
    (by simp [hg]) rfl hpre (by simp [hlen]) hsize (by omega)
  simp only [List.length_nil, Nat.zero_add] at h
  unfold waiting_controllers_pass MY_GATEWAY_MAX_CLIENTS
  simp only [hfd, if_false, h]
  simp [hlen]

/-! ## The reader -/

/-- The receive loop keeps the buffer's size, keeps `ptr` equal to `nbytes` and inside the
buffer, and touches neither the client table nor the log. -/
theorem recvByte_ok (cfg : Config) (b : Nat) (r : Reader) (g : Gateway)
    (hlen : r.inputString.length = cfg.MY_GATEWAY_MAX_RECEIVE_LENGTH)
    (hptr : r.ptr = r.nbytes) (hlt : r.ptr < cfg.MY_GATEWAY_MAX_RECEIVE_LENGTH) :
    ∃ r1 g1, recvByte cfg b (r, g) = .ok (r1, g1) ∧
      r1.inputString.length = cfg.MY_GATEWAY_MAX_RECEIVE_LENGTH ∧ r1.ptr = r1.nbytes ∧
      r1.ptr < cfg.MY_GATEWAY_MAX_RECEIVE_LENGTH ∧
      g1.controllers = g.controllers ∧ g1.log = g.log := by
  unfold recvByte
  simp only [hlen, hlt, if_true]
  by_cases hb : b = 10 ∨ b = 13
  · simp only [hb, if_true]
    refine ⟨_, _, rfl, by simp [hlen], rfl, by simpa using (by omega : 0 < cfg.MY_GATEWAY_MAX_RECEIVE_LENGTH), ?_, ?_⟩
    · split_ifs <;> simp [push_back]
    · split_ifs <;> simp [push_back]
  · simp only [hb, if_false]
    by_cases hn : r.nbytes + 1 = cfg.MY_GATEWAY_MAX_RECEIVE_LENGTH
    · simp only [hn, if_true]
      exact ⟨_, _, rfl, by simp [hlen], rfl, by simpa using (by omega : 0 < cfg.MY_GATEWAY_MAX_RECEIVE_LENGTH), rfl, rfl⟩
    · simp only [hn, if_false]
      exact ⟨_, _, rfl, by simp [hlen], by simp [hptr], by simp; omega, rfl, rfl⟩

theorem recvLoop_ok (cfg : Config) :
    ∀ (bytes : List Nat) (r : Reader) (g : Gateway),
      r.inputString.length = cfg.MY_GATEWAY_MAX_RECEIVE_LENGTH → r.ptr = r.nbytes →
      r.ptr < cfg.MY_GATEWAY_MAX_RECEIVE_LENGTH →
      ∃ r1 g1, recvLoop cfg bytes (r, g) = .ok (r1, g1) ∧
        r1.inputString.length = cfg.MY_GATEWAY_MAX_RECEIVE_LENGTH ∧ r1.ptr = r1.nbytes ∧
        r1.ptr < cfg.MY_GATEWAY_MAX_RECEIVE_LENGTH ∧
        g1.controllers = g.controllers ∧ g1.log = g.log := by
  intro bytes
  induction bytes with
  | nil => intro r g h1 h2 h3; exact ⟨r, g, rfl, h1, h2, h3, rfl, rfl⟩
  | cons b more ih =>
    intro r g h1 h2 h3
    obtain ⟨r1, g1, hstep, k1, k2, k3, k4, k5⟩ := recvByte_ok cfg b r g h1 h2 h3
    obtain ⟨r2, g2, hrest, m1, m2, m3, m4, m5⟩ := ih r1 g1 k1 k2 k3
    refine ⟨r2, g2, ?_, m1, m2, m3, by rw [m4, k4], by rw [m5, k5]⟩
    simp only [recvLoop, hstep, hrest]

theorem Reader.start_length (cfg : Config) (stack : Nat → Nat) :
    (Reader.start cfg stack).inputString.length = cfg.MY_GATEWAY_MAX_RECEIVE_LENGTH := by
  simp [Reader.start]

/-- When the reader ends, the lowest slot holding `sockfd` (the one after `pre`) is freed, the
other slots are left alone, and the socket is closed. -/
theorem connected_controller_frees (cfg : Config) (stack : Nat → Nat) (sockfd : Int)
    (bytes : List Nat) (rc : Int) (fuel : Nat) (g : Gateway) (pre rest : List Int)
    (hbuf : 0 < cfg.MY_GATEWAY_MAX_RECEIVE_LENGTH)
    (hsize : MY_GATEWAY_MAX_CLIENTS g ≤ 255) (hfuel : MY_GATEWAY_MAX_CLIENTS g < fuel)
    (hg : g.controllers = pre ++ sockfd :: rest) (hpre : ∀ fd ∈ pre, ¬ fd = sockfd) :
    ∃ g1, connected_controller cfg stack sockfd bytes rc fuel g = .ok g1 ∧
      g1.controllers = pre ++ (-1) :: rest ∧
      g1.log = g.log ++ (if rc = -1 then [Event.perror_recv] else []) ++ [Event.close sockfd] := by
  unfold MY_GATEWAY_MAX_CLIENTS at hsize hfuel
  obtain ⟨r1, g1, hloop, _, _, _, hc, hl⟩ := recvLoop_ok cfg bytes (Reader.start cfg stack) g
    (Reader.start_length cfg stack) rfl hbuf
  have hlen : g.controllers.length = pre.length + (1 + rest.length) := by
    rw [hg]; simp; omega
  have h := scanLoop_hit (unregisterBody sockfd) (fun fd => fd = sockfd) (-1)
    (unregisterBody_miss sockfd) (unregisterBody_hit sockfd)
    pre [] rest sockfd fuel g.controllers.length
    (if rc = -1 then { g1 with log := g1.log ++ [Event.perror_recv] } else g1)
    (by split_ifs <;> simp [hc, hg]) rfl hpre (by simp [hlen]) hsize (by omega)
  simp only [List.length_nil, Nat.zero_add, List.nil_append] at h
  have hsame : MY_GATEWAY_MAX_CLIENTS
      (if rc = -1 then { g1 with log := g1.log ++ [Event.perror_recv] } else g1) =
      g.controllers.length := by
    unfold MY_GATEWAY_MAX_CLIENTS
    split_ifs <;> simp [hc]
  unfold connected_controller
  simp only [hloop, hsame, h]
  refine ⟨_, rfl, rfl, ?_⟩
  split_ifs <;> simp [hl]

/-! ## Claims about the client table -/

/-- C5: on a client table in which no slot holds `-1` (of at most 255 slots), a pass of
`waiting_controllers` that accepted the connection `new_fd` closes `new_fd` in that same pass
and leaves every slot of the table, and the inbound queue, as they were. The calls of the pass
are the creation of the reader thread followed by `close(new_fd)`. -/
theorem waiting_controllers_rejects_when_full (new_fd : Int) (fuel : Nat) (g : Gateway)
    (hsize : MY_GATEWAY_MAX_CLIENTS g ≤ 255) (hfuel : MY_GATEWAY_MAX_CLIENTS g < fuel)
    (hfd : new_fd ≠ -1) (hfull : ∀ fd ∈ g.controllers, fd ≠ -1) :
    ∃ g1, waiting_controllers_pass new_fd fuel g = .ok g1 ∧
      g1.controllers = g.controllers ∧
      g1.ethernetMsg_q = g.ethernetMsg_q ∧
      g1.log = g.log ++
        [Event.pthread_create_connected_controller new_fd, Event.close new_fd] :=
  ⟨_, waiting_controllers_pass_full new_fd fuel g hsize hfuel hfd hfull, rfl, rfl, rfl⟩

/-- C5 at a full table of two clients. -/
theorem waiting_controllers_rejects_when_full_witness :
    ∃ g1, waiting_controllers_pass 9 3 (exampleGateway [5, 6]) = .ok g1 ∧
      g1.controllers = (exampleGateway [5, 6]).controllers ∧
      g1.ethernetMsg_q = (exampleGateway [5, 6]).ethernetMsg_q ∧
      g1.log = (exampleGateway [5, 6]).log ++
        [Event.pthread_create_connected_controller 9, Event.close 9] :=
  waiting_controllers_rejects_when_full 9 3 (exampleGateway [5, 6]) (by decide) (by decide)
    (by decide) (by decide)

/-- C6: on a table of at most 255 slots, (a) when slot `i` is the lowest one holding `-1`, a
pass of `waiting_controllers` that accepted `new_fd` stores `new_fd` in slot `i`, leaves the
other slots as they were and makes no `close` (its only call is the creation of the reader
thread); (b) when slot `i`, and no lower slot, holds the handle `sockfd` of a reader, then
after that reader has ended (whatever bytes it received, whatever `recv` returned last)
slot `i` holds `-1` and the other slots are as they were; (c) with two slots, both free:
after `A`, `B` and `C` are accepted in this order the table is `[A, B]` and `C` was closed,
after the reader of `A` has ended the table is `[-1, B]`, and the next accepted connection
`D` is stored in slot 0. -/
theorem slot_reuse (cfg : Config) (stack : Nat → Nat) (fuel : Nat) (g : Gateway)
    (hbuf : 0 < cfg.MY_GATEWAY_MAX_RECEIVE_LENGTH)
    (hsize : MY_GATEWAY_MAX_CLIENTS g ≤ 255) (hfuel : MY_GATEWAY_MAX_CLIENTS g < fuel) :
    (∀ (i : Nat) (new_fd : Int), new_fd ≠ -1 → g.controllers[i]? = some (-1) →
      (∀ j, j < i → g.controllers[j]? ≠ some (-1)) →
      waiting_controllers_pass new_fd fuel g =
        .ok { g with controllers := g.controllers.set i new_fd,
                     log := g.log ++ [Event.pthread_create_connected_controller new_fd] }) ∧
    (∀ (i : Nat) (sockfd : Int) (bytes : List Nat) (rc : Int),
      g.controllers[i]? = some sockfd → (∀ j, j < i → g.controllers[j]? ≠ some sockfd) →
      ∃ g1, connected_controller cfg stack sockfd bytes rc fuel g = .ok g1 ∧
        g1.controllers = g.controllers.set i (-1)) ∧
    (∀ (A B C D : Int) (bytes : List Nat) (rc : Int),
      A ≠ -1 → B ≠ -1 → C ≠ -1 → D ≠ -1 → g.controllers = [-1, -1] →
      ∃ g3 g4 g5, waiting_controllers fuel [A, B, C] g = .ok g3 ∧
        g3.controllers = [A, B] ∧
        g3.log = g.log ++ [Event.pthread_create_connected_controller A,
          Event.pthread_create_connected_controller B,
          Event.pthread_create_connected_controller C, Event.close C] ∧
        connected_controller cfg stack A bytes rc fuel g3 = .ok g4 ∧
        g4.controllers = [-1, B] ∧
        waiting_controllers_pass D fuel g4 = .ok g5 ∧
        g5.controllers = [D, B] ∧
        g5.log = g4.log ++ [Event.pthread_create_connected_controller D]) := by
  refine ⟨?_, ?_, ?_⟩
  · intro i new_fd hfd hslot hlow
    obtain ⟨h1, _, h3⟩ := split_at_slot g.controllers i (-1) hslot
    rw [waiting_controllers_pass_free new_fd fuel g _ _ hsize hfuel hfd h1
      (not_mem_take_of_lowest g.controllers i (-1) hlow), h3 new_fd]
  · intro i sockfd bytes rc hslot hlow
    obtain ⟨h1, _, h3⟩ := split_at_slot g.controllers i sockfd hslot
    obtain ⟨g1, k1, k2, _⟩ := connected_controller_frees cfg stack sockfd bytes rc fuel g _ _
      hbuf hsize hfuel h1 (not_mem_take_of_lowest g.controllers i sockfd hlow)
    exact ⟨g1, k1, by rw [k2, h3 (-1)]⟩
  · intro A B C D bytes rc hA hB hC hD hg
    have h2 : MY_GATEWAY_MAX_CLIENTS g = 2 := by simp [MY_GATEWAY_MAX_CLIENTS, hg]
    have hf : 2 < fuel := by omega
    have s1 := waiting_controllers_pass_free A fuel g [] [-1] hsize hfuel hA (by simp [hg])
      (by simp)
    have s2 := waiting_controllers_pass_free B fuel
      { g with controllers := [] ++ A :: [-1],
               log := g.log ++ [Event.pthread_create_connected_controller A] }
      [A] [] (by simp [MY_GATEWAY_MAX_CLIENTS]) (by simpa [MY_GATEWAY_MAX_CLIENTS] using hf) hB
      (by simp) (by simpa using hA)
    have s3 := waiting_controllers_pass_full C fuel
      { g with controllers := [A] ++ B :: [],
               log := g.log ++ [Event.pthread_create_connected_controller A] ++
                 [Event.pthread_create_connected_controller B] }
      (by simp [MY_GATEWAY_MAX_CLIENTS]) (by simpa [MY_GATEWAY_MAX_CLIENTS] using hf) hC
      (by simp [hA, hB])
    obtain ⟨g4, r1, r2, _⟩ := connected_controller_frees cfg stack A bytes rc fuel
      { g with controllers := [A] ++ B :: [],
               log := g.log ++ [Event.pthread_create_connected_controller A] ++
                 [Event.pthread_create_connected_controller B] ++
                 [Event.pthread_create_connected_controller C, Event.close C] }
      [] [B] hbuf (by simp [MY_GATEWAY_MAX_CLIENTS]) (by simpa [MY_GATEWAY_MAX_CLIENTS] using hf)
      (by simp) (by simp)
    have s5 := waiting_controllers_pass_free D fuel g4 [] [B]
      (by simp [MY_GATEWAY_MAX_CLIENTS, r2]) (by simpa [MY_GATEWAY_MAX_CLIENTS, r2] using hf) hD
      (by simpa using r2) (by simp)
    refine ⟨_, g4, _, ?_, ?_, ?_, r1, by simpa using r2, s5, rfl, rfl⟩
    · simp only [waiting_controllers, s1, s2, s3]
    · simp
    · simp

/-- C6 at tables of two slots: a registration into slot 1, the end of the reader of socket 5,
and the scenario with `A = 5`, `B = 6`, `C = 7`, `D = 8`. -/
theorem slot_reuse_witness :
    waiting_controllers_pass 7 3 (exampleGateway [5, -1]) =
      .ok { exampleGateway [5, -1] with
            controllers := (exampleGateway [5, -1]).controllers.set 1 7,
            log := (exampleGateway [5, -1]).log ++
              [Event.pthread_create_connected_controller 7] } ∧
    (∃ g1, connected_controller (exampleConfig 100) (fun _ => 0) 5 [49, 10] 0 3
        (exampleGateway [5, -1]) = .ok g1 ∧
      g1.controllers = (exampleGateway [5, -1]).controllers.set 0 (-1)) ∧
    (∃ g3 g4 g5, waiting_controllers 3 [5, 6, 7] (exampleGateway [-1, -1]) = .ok g3 ∧
      g3.controllers = [5, 6] ∧
      g3.log = (exampleGateway [-1, -1]).log ++ [Event.pthread_create_connected_controller 5,
        Event.pthread_create_connected_controller 6,
        Event.pthread_create_connected_controller 7, Event.close 7] ∧
      connected_controller (exampleConfig 100) (fun _ => 0) 5 [49, 10] (-1) 3 g3 = .ok g4 ∧
      g4.controllers = [-1, 6] ∧
      waiting_controllers_pass 8 3 g4 = .ok g5 ∧
      g5.controllers = [8, 6] ∧
      g5.log = g4.log ++ [Event.pthread_create_connected_controller 8]) :=
  ⟨(slot_reuse (exampleConfig 100) (fun _ => 0) 3 (exampleGateway [5, -1])
      (by decide) (by decide) (by decide)).1 1 7 (by decide) (by decide) (by decide),
   (slot_reuse (exampleConfig 100) (fun _ => 0) 3 (exampleGateway [5, -1])
      (by decide) (by decide) (by decide)).2.1 0 5 [49, 10] 0 (by decide) (by decide),
   (slot_reuse (exampleConfig 100) (fun _ => 0) 3 (exampleGateway [-1, -1])
      (by decide) (by decide) (by decide)).2.2 5 6 7 8 [49, 10] (-1)
      (by decide) (by decide) (by decide) (by decide) (by decide)⟩

/-! ## Framing of lines by the reader -/

theorem take_succ_set {α : Type} :
    ∀ (l : List α) (i : Nat) (v : α), i < l.length → (l.set i v).take (i + 1) = l.take i ++ [v] := by
  intro l
  induction l with
  | nil => intro i v h; simp at h
  | cons a t ih =>
    intro i v h
    cases i with
    | zero => simp
    | succ k =>
      simp only [List.length_cons, Nat.add_lt_add_iff_right] at h
      simp [ih k v h]

theorem cstr_set_zero :
    ∀ (l : List Nat) (i : Nat), i < l.length → cstr (l.set i 0) = cstr (l.take i) := by
  intro l
  induction l with
  | nil => intro i h; simp at h
  | cons a t ih =>
    intro i h
    cases i with
    | zero => simp [cstr]
    | succ k =>
      simp only [List.length_cons, Nat.add_lt_add_iff_right] at h
      have := ih k h
      simp only [cstr] at this ⊢
      by_cases ha : a = 0
      · simp [ha]
      · simp only [List.set_cons_succ, List.take_succ_cons, List.takeWhile_cons, ha]
        simp only [ne_eq, not_false_eq_true, decide_True, if_true, this]

theorem set_set_same {α : Type} :
    ∀ (l : List α) (i : Nat) (v w : α), (l.set i v).set i w = l.set i w := by
  intro l
  induction l with
  | nil => intro i v w; simp
  | cons a t ih =>
    intro i v w
    cases i with
    | zero => simp
    | succ k => simp [ih k v w]

theorem cstr_eq_self : ∀ l : List Nat, (∀ b ∈ l, b ≠ 0) → cstr l = l := by
  intro l
  induction l with
  | nil => intro _; rfl
  | cons a t ih =>
    intro h
    have ha : a ≠ 0 := h a (by simp)
    have ht := ih (fun b hb => h b (by simp [hb]))
    simp only [cstr] at ht ⊢
    simp only [List.takeWhile_cons, ne_eq, ha, not_false_eq_true, decide_True, if_true, ht]

theorem recvLoop_append (cfg : Config) :
    ∀ (a b : List Nat) (st st1 : Reader × Gateway), recvLoop cfg a st = .ok st1 →
      recvLoop cfg (a ++ b) st = recvLoop cfg b st1 := by
  intro a
  induction a with
  | nil => intro b st st1 h; simp [recvLoop] at h; simp [h]
  | cons x t ih =>
    intro b st st1 h
    simp only [recvLoop, List.cons_append] at h ⊢
    cases hx : recvByte cfg x st with
    | error e => simp [hx] at h
    | ok st2 =>
      simp only [hx] at h ⊢
      exact ih b st2 st1 h

/-- Receiving a byte that is no terminator and does not fill the buffer stores it and advances. -/
theorem recvByte_store (cfg : Config) (b : Nat) (r : Reader) (g : Gateway)
    (hb : b ≠ 10 ∧ b ≠ 13) (hlen : r.inputString.length = cfg.MY_GATEWAY_MAX_RECEIVE_LENGTH)
    (hptr : r.ptr = r.nbytes) (hlt : r.ptr + 1 < cfg.MY_GATEWAY_MAX_RECEIVE_LENGTH) :
    recvByte cfg b (r, g) =
      .ok ({ r with inputString := r.inputString.set r.ptr b, ptr := r.ptr + 1,
                    nbytes := r.nbytes + 1 }, g) := by
  unfold recvByte
  have h1 : r.ptr < r.inputString.length := by omega
  have h2 : ¬ (b = 10 ∨ b = 13) := by tauto
  have h3 : ¬ r.nbytes + 1 = cfg.MY_GATEWAY_MAX_RECEIVE_LENGTH := by omega
  simp only [h1, h2, h3, if_true, if_false]

/-- Receiving a terminator hands the bytes before `ptr`, as a C string, to `protocolParse`,
pushes the message when the parse succeeds, and resets `ptr` and `nbytes`. -/
theorem recvByte_terminator (cfg : Config) (t : Nat) (r : Reader) (g : Gateway)
    (ht : t = 10 ∨ t = 13) (hlt : r.ptr < r.inputString.length) :
    recvByte cfg t (r, g) =
      .ok ({ inputString := r.inputString.set r.ptr 0, ptr := 0, nbytes := 0,
             ethernetMsg := (cfg.protocolParse r.ethernetMsg (cstr (r.inputString.take r.ptr))).2 },
           if (cfg.protocolParse r.ethernetMsg (cstr (r.inputString.take r.ptr))).1 then
             push_back g (cfg.protocolParse r.ethernetMsg (cstr (r.inputString.take r.ptr))).2
           else g) := by
  unfold recvByte
  simp only [hlt, ht, if_true, set_set_same, cstr_set_zero r.inputString r.ptr hlt]

theorem recvLoop_accumulate (cfg : Config) :
    ∀ (l : List Nat) (r : Reader) (g : Gateway), (∀ b ∈ l, b ≠ 10 ∧ b ≠ 13) →
      r.inputString.length = cfg.MY_GATEWAY_MAX_RECEIVE_LENGTH → r.ptr = r.nbytes →
      r.ptr + l.length < cfg.MY_GATEWAY_MAX_RECEIVE_LENGTH →
      ∃ r1, recvLoop cfg l (r, g) = .ok (r1, g) ∧
        r1.inputString.length = cfg.MY_GATEWAY_MAX_RECEIVE_LENGTH ∧
        r1.ptr = r.ptr + l.length ∧ r1.nbytes = r1.ptr ∧ r1.ethernetMsg = r.ethernetMsg ∧
        r1.inputString.take r1.ptr = r.inputString.take r.ptr ++ l := by
  intro l
  induction l with
  | nil => intro r g _ h1 h2 _; exact ⟨r, rfl, h1, by simp, h2.symm, rfl, by simp⟩
  | cons b t ih =>
    intro r g hl h1 h2 h3
    simp only [List.length_cons] at h3
    have hstep := recvByte_store cfg b r g (hl b (by simp)) h1 h2 (by omega)
    obtain ⟨r1, k1, k2, k3, k4, k5, k6⟩ := ih
      { r with inputString := r.inputString.set r.ptr b, ptr := r.ptr + 1, nbytes := r.nbytes + 1 }
      g (fun x hx => hl x (by simp [hx])) (by simp [h1]) (by simp [h2]) (by simp; omega)
    refine ⟨r1, ?_, k2, by simp only [List.length_cons]; simp only at k3; omega, k4, k5, ?_⟩
    · simp only [recvLoop, hstep, k1]
    · rw [k6]
      simp only
      rw [take_succ_set _ _ _ (by omega)]
      simp

/-- A whole line: from a reset reader, a line shorter than the buffer followed by a terminator
hands exactly the line (as a C string) to `protocolParse` and leaves the reader reset. -/
theorem recvLoop_line (cfg : Config) (l : List Nat) (t : Nat) (r : Reader) (g : Gateway)
    (hl : ∀ b ∈ l, b ≠ 10 ∧ b ≠ 13) (ht : t = 10 ∨ t = 13)
    (hlen : r.inputString.length = cfg.MY_GATEWAY_MAX_RECEIVE_LENGTH)
    (hptr : r.ptr = 0) (hn : r.nbytes = 0) (hshort : l.length < cfg.MY_GATEWAY_MAX_RECEIVE_LENGTH) :
    ∃ r1, recvLoop cfg (l ++ [t]) (r, g) =
        .ok (r1, if (cfg.protocolParse r.ethernetMsg (cstr l)).1 then
                   push_back g (cfg.protocolParse r.ethernetMsg (cstr l)).2
                 else g) ∧
      r1.inputString.length = cfg.MY_GATEWAY_MAX_RECEIVE_LENGTH ∧ r1.ptr = 0 ∧ r1.nbytes = 0 ∧
      r1.ethernetMsg = (cfg.protocolParse r.ethernetMsg (cstr l)).2 := by
  obtain ⟨r1, k1, k2, k3, _, k5, k6⟩ := recvLoop_accumulate cfg l r g hl hlen (by omega)
    (by omega)
  rw [hptr] at k6
  simp only [List.take_zero, List.nil_append] at k6
  rw [recvLoop_append cfg l [t] (r, g) (r1, g) k1]
  simp only [recvLoop]
  rw [recvByte_terminator cfg t r1 g ht (by omega), k6, k5]
  exact ⟨_, rfl, by simp [k2], rfl, rfl, rfl⟩

theorem recvLoop_lines (cfg : Config) :
    ∀ (lines : List (List Nat × Nat)) (r : Reader) (g : Gateway),
      (∀ lt ∈ lines, (∀ b ∈ lt.1, b ≠ 10 ∧ b ≠ 13) ∧
        lt.1.length < cfg.MY_GATEWAY_MAX_RECEIVE_LENGTH ∧ (lt.2 = 10 ∨ lt.2 = 13)) →
      r.inputString.length = cfg.MY_GATEWAY_MAX_RECEIVE_LENGTH → r.ptr = 0 → r.nbytes = 0 →
      ∃ r1, recvLoop cfg (wire lines) (r, g) =
          .ok (r1, (parsedInOrder cfg r.ethernetMsg (lines.map Prod.fst)).foldl push_back g) ∧
        r1.inputString.length = cfg.MY_GATEWAY_MAX_RECEIVE_LENGTH ∧ r1.ptr = 0 ∧
        r1.nbytes = 0 := by
  intro lines
  induction lines with
  | nil =>
    intro r g _ h1 h2 h3
    exact ⟨r, by simp [wire, recvLoop, parsedInOrder], h1, h2, h3⟩
  | cons lt more ih =>
    intro r g hall h1 h2 h3
    obtain ⟨l, t⟩ := lt
    obtain ⟨hl, hshort, ht⟩ := hall (l, t) (by simp)
    obtain ⟨r1, k1, k2, k3, k4, k5⟩ := recvLoop_line cfg l t r g hl ht h1 h2 h3 hshort
    obtain ⟨r2, m1, m2, m3, m4⟩ := ih r1
      (if (cfg.protocolParse r.ethernetMsg (cstr l)).1 then
        push_back g (cfg.protocolParse r.ethernetMsg (cstr l)).2 else g)
      (fun x hx => hall x (by simp [hx])) k2 k3 k4
    refine ⟨r2, ?_, m2, m3, m4⟩
    have hw : wire ((l, t) :: more) = (l ++ [t]) ++ wire more := by simp [wire]
    rw [hw, recvLoop_append cfg _ _ _ _ k1, m1, k5]
    simp only [List.map_cons, parsedInOrder]
    split_ifs <;> simp

/-- A scanning loop always ends, and changes nothing but the client table, whose size it keeps. -/
theorem scanLoop_total (body : Nat → Gateway → Except Fault (Gateway × Bool)) (P : Int → Prop)
    (v : Int)
    (hmiss : ∀ (pre rest : List Int) (fd : Int) (g : Gateway),
      g.controllers = pre ++ fd :: rest → ¬ P fd → body pre.length g = .ok (g, false))
    (hhit : ∀ (pre rest : List Int) (fd : Int) (g : Gateway),
      g.controllers = pre ++ fd :: rest → P fd →
      body pre.length g = .ok ({ g with controllers := pre ++ v :: rest }, true)) :
    ∀ (todo pre : List Int) (fuel n : Nat) (g : Gateway),
      g.controllers = pre ++ todo → n = pre.length + todo.length → n ≤ 255 →
      todo.length < fuel →
      ∃ i table, forU8 n body fuel pre.length g = .ok (i, { g with controllers := table }) ∧
        table.length = n := by
  intro todo
  induction todo with
  | nil =>
    intro pre fuel n g hg hn _ hfuel
    obtain ⟨f, rfl⟩ : ∃ f, fuel = f + 1 := ⟨fuel - 1, by simp at hfuel; omega⟩
    rw [forU8_stop _ _ _ _ _ (by simp [hn])]
    exact ⟨_, g.controllers, rfl, by simp [hg, hn]⟩
  | cons fd rest ih =>
    intro pre fuel n g hg hn hle hfuel
    obtain ⟨f, rfl⟩ : ∃ f, fuel = f + 1 := ⟨fuel - 1, by simp at hfuel; omega⟩
    have hi : pre.length < n := by simp [hn]
    by_cases hP : P fd
    · rw [forU8_break _ _ _ _ _ _ hi (hhit pre rest fd g hg hP)]
      exact ⟨_, _, rfl, by simp [hn]⟩
    · rw [forU8_next _ _ _ _ _ _ hi hle (hmiss pre rest fd g hg hP)]
      have := ih (pre ++ [fd]) f n g (by simp [hg]) (by simp [hn]; omega) hle
        (by simp at hfuel; omega)
      simpa using this

/-- The function `connected_controller` returns, with the queue the receive loop left. -/
theorem connected_controller_queue (cfg : Config) (stack : Nat → Nat) (sockfd : Int)
    (bytes : List Nat) (rc : Int) (fuel : Nat) (g : Gateway) (r1 : Reader) (g1 : Gateway)
    (hsize : MY_GATEWAY_MAX_CLIENTS g ≤ 255) (hfuel : MY_GATEWAY_MAX_CLIENTS g < fuel)
    (hloop : recvLoop cfg bytes (Reader.start cfg stack, g) = .ok (r1, g1))
    (htable : g1.controllers = g.controllers) :
    ∃ g2, connected_controller cfg stack sockfd bytes rc fuel g = .ok g2 ∧
      g2.ethernetMsg_q = g1.ethernetMsg_q := by
  unfold MY_GATEWAY_MAX_CLIENTS at hsize hfuel
  obtain ⟨i, table, h, _⟩ := scanLoop_total (unregisterBody sockfd) (fun fd => fd = sockfd) (-1)
    (unregisterBody_miss sockfd) (unregisterBody_hit sockfd)
    g.controllers [] fuel g.controllers.length
    (if rc = -1 then { g1 with log := g1.log ++ [Event.perror_recv] } else g1)
    (by split_ifs <;> simp [htable]) (by simp) hsize hfuel
  simp only [List.length_nil] at h
  have hsame : MY_GATEWAY_MAX_CLIENTS
      (if rc = -1 then { g1 with log := g1.log ++ [Event.perror_recv] } else g1) =
      g.controllers.length := by
    unfold MY_GATEWAY_MAX_CLIENTS
    split_ifs <;> simp [htable]
  unfold connected_controller
  simp only [hloop, hsame, h]
  refine ⟨_, rfl, ?_⟩
  split_ifs <;> rfl

/-! ## Claims about the reader -/

/-- C1: let `lines` be lines that contain no `'\n'` and no `'\r'`, are shorter than
`MY_GATEWAY_MAX_RECEIVE_LENGTH`, and are each followed by one terminator. When
`connected_controller` receives them, its receive loop ends with the inbound queue extended
by exactly the messages `protocolParse` yields for the lines whose parse succeeds, one per
line and in arrival order (a line whose parse fails adds nothing); the same holds when the
function has returned. In particular, when `protocolParse` decodes `1;0;1;0;0;22.5` to `m`,
the bytes of that line and `'\n'` arriving with an empty queue leave the queue `[m]`, the next
`gatewayTransportReceive` returns `m`, and the queue is empty afterwards. -/
theorem connected_controller_enqueues_lines (cfg : Config) (stack : Nat → Nat) (sockfd : Int)
    (lines : List (List Nat × Nat)) (rc : Int) (fuel : Nat) (g : Gateway)
    (hlines : ∀ lt ∈ lines, (∀ b ∈ lt.1, b ≠ 10 ∧ b ≠ 13) ∧
      lt.1.length < cfg.MY_GATEWAY_MAX_RECEIVE_LENGTH ∧ (lt.2 = 10 ∨ lt.2 = 13))
    (hsize : MY_GATEWAY_MAX_CLIENTS g ≤ 255) (hfuel : MY_GATEWAY_MAX_CLIENTS g < fuel) :
    (∃ r1, recvLoop cfg (wire lines) (Reader.start cfg stack, g) =
      .ok (r1, (parsedInOrder cfg cfg.newMyMessage (lines.map Prod.fst)).foldl push_back g)) ∧
    (∃ g1, connected_controller cfg stack sockfd (wire lines) rc fuel g = .ok g1 ∧
      g1.ethernetMsg_q =
        g.ethernetMsg_q ++ parsedInOrder cfg cfg.newMyMessage (lines.map Prod.fst)) ∧
    (∀ m : MyMessage, 14 < cfg.MY_GATEWAY_MAX_RECEIVE_LENGTH →
      cfg.protocolParse cfg.newMyMessage [49, 59, 48, 59, 49, 59, 48, 59, 48, 59, 50, 50, 46, 53] =
        (true, m) →
      g.ethernetMsg_q = [] →
      ∃ g1 g2,
        connected_controller cfg stack sockfd
          [49, 59, 48, 59, 49, 59, 48, 59, 48, 59, 50, 50, 46, 53, 10] rc fuel g = .ok g1 ∧
        g1.ethernetMsg_q = [m] ∧
        gatewayTransportReceive g1 = .ok (m, g2) ∧ g2.ethernetMsg_q = []) := by
  have key : ∀ ls : List (List Nat × Nat),
      (∀ lt ∈ ls, (∀ b ∈ lt.1, b ≠ 10 ∧ b ≠ 13) ∧
        lt.1.length < cfg.MY_GATEWAY_MAX_RECEIVE_LENGTH ∧ (lt.2 = 10 ∨ lt.2 = 13)) →
      (∃ r1, recvLoop cfg (wire ls) (Reader.start cfg stack, g) =
        .ok (r1, (parsedInOrder cfg cfg.newMyMessage (ls.map Prod.fst)).foldl push_back g)) ∧
      (∃ g1, connected_controller cfg stack sockfd (wire ls) rc fuel g = .ok g1 ∧
        g1.ethernetMsg_q =
          g.ethernetMsg_q ++ parsedInOrder cfg cfg.newMyMessage (ls.map Prod.fst)) := by
    intro ls hls
    obtain ⟨r1, h1, _, _, _⟩ := recvLoop_lines cfg ls (Reader.start cfg stack) g hls
      (Reader.start_length cfg stack) rfl rfl
    have h1' : recvLoop cfg (wire ls) (Reader.start cfg stack, g) =
        .ok (r1, (parsedInOrder cfg cfg.newMyMessage (ls.map Prod.fst)).foldl push_back g) := h1
    obtain ⟨g2, k1, k2⟩ := connected_controller_queue cfg stack sockfd (wire ls) rc fuel g r1 _
      hsize hfuel h1' (by rw [foldl_push_back])
    refine ⟨⟨r1, h1'⟩, g2, k1, ?_⟩
    rw [k2, foldl_push_back]
  refine ⟨(key lines hlines).1, (key lines hlines).2, ?_⟩
  intro m hlen hparse hq
  obtain ⟨g1, k1, k2⟩ := (key [([49, 59, 48, 59, 49, 59, 48, 59, 48, 59, 50, 50, 46, 53], 10)]
    (by
      intro lt hlt
      simp only [List.mem_singleton] at hlt
      subst hlt
      refine ⟨by decide, by simpa using hlen, by decide⟩)).2
  have hc : cstr [49, 59, 48, 59, 49, 59, 48, 59, 48, 59, 50, 50, 46, 53] =
      [49, 59, 48, 59, 49, 59, 48, 59, 48, 59, 50, 50, 46, 53] := by decide
  have hq1 : g1.ethernetMsg_q = [m] := by
    rw [k2, hq]
    simp [parsedInOrder, hc, hparse]
  refine ⟨g1, { g1 with _ethernetMsg := m, ethernetMsg_q := [] }, k1, hq1, ?_, rfl⟩
  simp [gatewayTransportReceive, hq1]

/-- C1 with the example codec: the reader of socket 5 receives `1;0;1;0;0;22.5\n`. -/
theorem connected_controller_enqueues_lines_witness :
    ∃ g1 g2,
      connected_controller (exampleConfig 100) (fun _ => 0) 5
        [49, 59, 48, 59, 49, 59, 48, 59, 48, 59, 50, 50, 46, 53, 10] 0 2 (exampleGateway [5]) =
        .ok g1 ∧
      g1.ethernetMsg_q = [exampleMsg] ∧
      gatewayTransportReceive g1 = .ok (exampleMsg, g2) ∧ g2.ethernetMsg_q = [] :=
  (connected_controller_enqueues_lines (exampleConfig 100) (fun _ => 0) 5
    [([49, 59, 48, 59, 49, 59, 48, 59, 48, 59, 50, 50, 46, 53], 10)] 0 2 (exampleGateway [5])
    (by decide) (by decide) (by decide)).2.2 exampleMsg (by decide) (by decide) (by decide)

set_option maxRecDepth 100000

/-- C7, evaluated on the code with a buffer of 100 bytes and the example codec: the reader
receives one line of 114 bytes (100 times `x`, then `1;0;1;0;0;22.5`), its terminator, and the
line `2;0;1;0;0;7` with its terminator. The count reaches 100 inside the long line, the
buffer restarts there, and the rest of the long line is parsed as a line of its own: the
queue ends as two messages, the first of them made of the tail of the oversized line. Without
the oversized line the queue ends as the one message of `2;0;1;0;0;7`. -/
theorem connected_controller_oversized_line_tail :
    connected_controller (exampleConfig 100) (fun _ => 0) 5
        (List.replicate 100 120 ++
          [49, 59, 48, 59, 49, 59, 48, 59, 48, 59, 50, 50, 46, 53, 10,
           50, 59, 48, 59, 49, 59, 48, 59, 48, 59, 55, 10])
        0 2 (exampleGateway [5]) =
      .ok { controllers := [-1],
            _ethernetMsg := (exampleConfig 100).newMyMessage,
            ethernetMsg_q :=
              [exampleMsg,
               { destination := 2, sensor := 0, command := 1, ack := 0, type := 0,
                 payload := [55] }],
            log := [Event.close 5] } ∧
    connected_controller (exampleConfig 100) (fun _ => 0) 5
        [50, 59, 48, 59, 49, 59, 48, 59, 48, 59, 55, 10]
        0 2 (exampleGateway [5]) =
      .ok { controllers := [-1],
            _ethernetMsg := (exampleConfig 100).newMyMessage,
            ethernetMsg_q :=
              [{ destination := 2, sensor := 0, command := 1, ack := 0, type := 0,
                 payload := [55] }],
            log := [Event.close 5] } := by
  constructor <;> decide

/-! ## Claims about the MQTT bridge -/

/-- C8: for every inbound topic message, (a) when `protocolMQTTParse` fails, or the decoded
message has destination 0, sensor 0 or type 255, `mqtt_message_callback` leaves the inbound
queue and the client table as they were and makes no `send` (its only call is the `debug`
line); (b) otherwise, on a table of at most 255 slots, it appends the decoded message once
to `ethernetMsg_q`, the queue the readers push to, and writes `protocolFormat` of that message
once to every slot holding a handle other than `-1`. -/
theorem mqtt_message_callback_filters (cfg : Config) (sendResult : Nat → SendResult)
    (topic payload : List Nat) (fuel : Nat) (g : Gateway) :
    (((cfg.protocolMQTTParse cfg.newMyMessage topic payload).1 = false ∨
        (cfg.protocolMQTTParse cfg.newMyMessage topic payload).2.destination = 0 ∨
        (cfg.protocolMQTTParse cfg.newMyMessage topic payload).2.sensor = 0 ∨
        (cfg.protocolMQTTParse cfg.newMyMessage topic payload).2.type = 255) →
      ∃ g1, mqtt_message_callback cfg sendResult topic payload fuel g = .ok g1 ∧
        g1.ethernetMsg_q = g.ethernetMsg_q ∧ g1.controllers = g.controllers ∧
        g1.log = g.log ++ [Event.debug_bad_message] ∧ sends g1.log = sends g.log) ∧
    ((cfg.protocolMQTTParse cfg.newMyMessage topic payload).1 = true →
      (cfg.protocolMQTTParse cfg.newMyMessage topic payload).2.destination ≠ 0 →
      (cfg.protocolMQTTParse cfg.newMyMessage topic payload).2.sensor ≠ 0 →
      (cfg.protocolMQTTParse cfg.newMyMessage topic payload).2.type ≠ 255 →
      MY_GATEWAY_MAX_CLIENTS g ≤ 255 → MY_GATEWAY_MAX_CLIENTS g < fuel →
      ∃ g1 added, mqtt_message_callback cfg sendResult topic payload fuel g = .ok g1 ∧
        g1.ethernetMsg_q =
          g.ethernetMsg_q ++ [(cfg.protocolMQTTParse cfg.newMyMessage topic payload).2] ∧
        g1.log = g.log ++ added ∧
        sends added =
          (g.controllers.filter (fun fd => decide (fd ≠ -1))).map
            (fun fd =>
              (fd, cfg.protocolFormat (cfg.protocolMQTTParse cfg.newMyMessage topic payload).2))) := by
  constructor
  · intro hbad
    refine ⟨{ g with log := g.log ++ [Event.debug_bad_message] }, ?_, rfl, rfl, rfl, ?_⟩
    · unfold mqtt_message_callback
      rcases hbad with h | h | h | h <;> simp [h]
    · simp [sends_append, sends]
  · intro hok hd hs ht hsize hfuel
    unfold MY_GATEWAY_MAX_CLIENTS at hsize hfuel
    have h := sendLoop_spec sendResult
      (cfg.protocolFormat (cfg.protocolMQTTParse cfg.newMyMessage topic payload).2)
      g.controllers [] fuel g.controllers.length
      (push_back g (cfg.protocolMQTTParse cfg.newMyMessage topic payload).2)
      (by simp [push_back]) (by simp) hsize hfuel
    simp only [List.length_nil, List.nil_append] at h
    have hlen : MY_GATEWAY_MAX_CLIENTS
        (push_back g (cfg.protocolMQTTParse cfg.newMyMessage topic payload).2) =
        g.controllers.length := by simp [MY_GATEWAY_MAX_CLIENTS, push_back]
    refine ⟨{ push_back g (cfg.protocolMQTTParse cfg.newMyMessage topic payload).2 with
        controllers := tableAfterSend sendResult 0 g.controllers,
        log := g.log ++ fanOutEvents sendResult
          (cfg.protocolFormat (cfg.protocolMQTTParse cfg.newMyMessage topic payload).2) 0
          g.controllers },
      fanOutEvents sendResult
        (cfg.protocolFormat (cfg.protocolMQTTParse cfg.newMyMessage topic payload).2) 0
        g.controllers, ?_, rfl, rfl, sends_fanOutEvents sendResult _ g.controllers 0⟩
    unfold mqtt_message_callback
    simp only [hok, if_true, hlen, h]
    simp [hd, hs, ht, push_back]

/-- C8 with the example codec: a topic without address fields is dropped, and the message on
`in/1/2/1/0/0` is queued and written to the two connected clients. -/
theorem mqtt_message_callback_filters_witness :
    (∃ g1, mqtt_message_callback (exampleConfig 100) (fun _ => ⟨15, 0⟩) [105, 110] [55] 0
        (exampleGateway [5, -1, 7]) = .ok g1 ∧
      g1.ethernetMsg_q = (exampleGateway [5, -1, 7]).ethernetMsg_q ∧
      g1.controllers = (exampleGateway [5, -1, 7]).controllers ∧
      g1.log = (exampleGateway [5, -1, 7]).log ++ [Event.debug_bad_message] ∧
      sends g1.log = sends (exampleGateway [5, -1, 7]).log) ∧
    (∃ g1 added, mqtt_message_callback (exampleConfig 100) (fun _ => ⟨15, 0⟩)
        [105, 110, 47, 49, 47, 50, 47, 49, 47, 48, 47, 48] [55] 4
        (exampleGateway [5, -1, 7]) = .ok g1 ∧
      g1.ethernetMsg_q = (exampleGateway [5, -1, 7]).ethernetMsg_q ++
        [((exampleConfig 100).protocolMQTTParse (exampleConfig 100).newMyMessage
          [105, 110, 47, 49, 47, 50, 47, 49, 47, 48, 47, 48] [55]).2] ∧
      g1.log = (exampleGateway [5, -1, 7]).log ++ added ∧
      sends added =
        ((exampleGateway [5, -1, 7]).controllers.filter (fun fd => decide (fd ≠ -1))).map
          (fun fd =>
            (fd, (exampleConfig 100).protocolFormat
              ((exampleConfig 100).protocolMQTTParse (exampleConfig 100).newMyMessage
                [105, 110, 47, 49, 47, 50, 47, 49, 47, 48, 47, 48] [55]).2))) :=
  ⟨(mqtt_message_callback_filters (exampleConfig 100) (fun _ => ⟨15, 0⟩) [105, 110] [55] 0
      (exampleGateway [5, -1, 7])).1 (by decide),
   (mqtt_message_callback_filters (exampleConfig 100) (fun _ => ⟨15, 0⟩)
      [105, 110, 47, 49, 47, 50, 47, 49, 47, 48, 47, 48] [55] 4
      (exampleGateway [5, -1, 7])).2 (by decide) (by decide) (by decide) (by decide)
      (by decide) (by decide)⟩

/-- C10, as the code behaves: when `mosquitto_connect` returns 1, `mqtt_thread` makes that one
connect attempt, prints a message and calls `exit(1)`, which terminates the process; it does
not reach `mosquitto_loop_forever`. -/
theorem mqtt_thread_exits_on_connect_failure :
    mqtt_thread true 1 (exampleGateway []) =
      (ThreadEnd.processExit 1,
        { exampleGateway [] with
          log := [Event.mosquitto_lib_init, Event.mosquitto_new, Event.mosquitto_connect,
                  Event.fprintf_stderr, Event.exit 1] }) ∧
    ¬ (∀ code : Int, (mqtt_thread true 1 (exampleGateway [])).1 ≠ ThreadEnd.processExit code) := by
  constructor
  · decide
  · intro h
    exact h 1 (by decide)

/-- C10 amended: when `mosquitto_new` returned a handle, a connect attempt that fails
(`mosquitto_connect` returns non-zero) is fatal: `mqtt_thread` makes no second attempt and
terminates the process with `exit(1)` without entering the network loop; a connect attempt
that succeeds leads into `mosquitto_loop_forever` and to no `exit`. -/
theorem mqtt_thread_connect_outcomes (connectRc : Int) (g : Gateway) :
    (connectRc ≠ 0 →
      ∃ added, mqtt_thread true connectRc g =
          (ThreadEnd.processExit 1, { g with log := g.log ++ added }) ∧
        added.count Event.mosquitto_connect = 1 ∧ Event.exit 1 ∈ added ∧
        Event.mosquitto_loop_forever ∉ added) ∧
    (connectRc = 0 →
      ∃ added, mqtt_thread true connectRc g =
          (ThreadEnd.returned, { g with log := g.log ++ added }) ∧
        added.count Event.mosquitto_connect = 1 ∧ Event.mosquitto_loop_forever ∈ added ∧
        ∀ code, Event.exit code ∉ added) := by
  constructor
  · intro h
    refine ⟨[Event.mosquitto_lib_init, Event.mosquitto_new, Event.mosquitto_connect,
      Event.fprintf_stderr, Event.exit 1], ?_, by decide, by decide, by decide⟩
    simp [mqtt_thread, h]
  · intro h
    refine ⟨[Event.mosquitto_lib_init, Event.mosquitto_new, Event.mosquitto_connect,
      Event.mosquitto_loop_forever, Event.mosquitto_destroy, Event.mosquitto_lib_cleanup],
      ?_, by decide, by decide, ?_⟩
    · simp [mqtt_thread, h]
    · intro code
      simp

/-- C10 amended, at the return values 5 (failure) and 0 (success) of `mosquitto_connect`. -/
theorem mqtt_thread_connect_outcomes_witness :
    (∃ added, mqtt_thread true 5 (exampleGateway [5]) =
        (ThreadEnd.processExit 1,
          { exampleGateway [5] with log := (exampleGateway [5]).log ++ added }) ∧
      added.count Event.mosquitto_connect = 1 ∧ Event.exit 1 ∈ added ∧
      Event.mosquitto_loop_forever ∉ added) ∧
    (∃ added, mqtt_thread true 0 (exampleGateway [5]) =
        (ThreadEnd.returned,
          { exampleGateway [5] with log := (exampleGateway [5]).log ++ added }) ∧
      added.count Event.mosquitto_connect = 1 ∧ Event.mosquitto_loop_forever ∈ added ∧
      ∀ code, Event.exit code ∉ added) :=
  ⟨(mqtt_thread_connect_outcomes 5 (exampleGateway [5])).1 (by decide),
   (mqtt_thread_connect_outcomes 0 (exampleGateway [5])).2 (by decide)⟩

/-! ## Claims about the reader thread of a rejected connection -/

/-- C11, evaluated on the code at a full table `[5, 6]` when `accept` returns 9: the pass of
`waiting_controllers` first creates a `connected_controller` thread on 9 and only then finds
no free slot and closes 9, so a reader has been started on the rejected connection. When
that reader's `recv` fails, it finds 9 in no slot and calls `close(9)` a second time. -/
theorem waiting_controllers_starts_reader_before_registering :
    waiting_controllers_pass 9 3 (exampleGateway [5, 6]) =
      .ok { exampleGateway [5, 6] with
            log := [Event.pthread_create_connected_controller 9, Event.close 9] } ∧
    connected_controller (exampleConfig 100) (fun _ => 0) 9 [] (-1) 3
        { exampleGateway [5, 6] with
          log := [Event.pthread_create_connected_controller 9, Event.close 9] } =
      .ok { exampleGateway [5, 6] with
            log := [Event.pthread_create_connected_controller 9, Event.close 9,
                    Event.perror_recv, Event.close 9] } := by
  constructor <;> decide

/-! ## Claims about the line buffer -/

/-- One received byte keeps the reader's invariant: the buffer keeps its size, `ptr` equals
`nbytes` and is inside the buffer, and the bytes stored before `ptr` are the last bytes
received, none of them a terminator. -/
theorem recvByte_invariant (cfg : Config) (b : Nat) (seen : List Nat) (r : Reader) (g : Gateway)
    (hlen : r.inputString.length = cfg.MY_GATEWAY_MAX_RECEIVE_LENGTH)
    (hptr : r.ptr = r.nbytes) (hlt : r.ptr < cfg.MY_GATEWAY_MAX_RECEIVE_LENGTH)
    (hseen : ∃ front, seen = front ++ r.inputString.take r.ptr)
    (hline : ∀ x ∈ r.inputString.take r.ptr, x ≠ 10 ∧ x ≠ 13) :
    ∃ r1 g1, recvByte cfg b (r, g) = .ok (r1, g1) ∧
      r1.inputString.length = cfg.MY_GATEWAY_MAX_RECEIVE_LENGTH ∧ r1.ptr = r1.nbytes ∧
      r1.ptr < cfg.MY_GATEWAY_MAX_RECEIVE_LENGTH ∧
      (∃ front, seen ++ [b] = front ++ r1.inputString.take r1.ptr) ∧
      (∀ x ∈ r1.inputString.take r1.ptr, x ≠ 10 ∧ x ≠ 13) := by
  have hpos : 0 < cfg.MY_GATEWAY_MAX_RECEIVE_LENGTH := by omega
  by_cases hb : b = 10 ∨ b = 13
  · rw [recvByte_terminator cfg b r g hb (by omega)]
    exact ⟨_, _, rfl, by simp [hlen], rfl, hpos, ⟨seen ++ [b], by simp⟩, by simp⟩
  · by_cases hn : r.nbytes + 1 = cfg.MY_GATEWAY_MAX_RECEIVE_LENGTH
    · refine ⟨{ r with inputString := r.inputString.set r.ptr b, ptr := 0, nbytes := 0 }, g,
        ?_, by simp [hlen], rfl, hpos, ⟨seen ++ [b], by simp⟩, by simp⟩
      unfold recvByte
      simp only [hlen, hlt, hb, hn, if_true, if_false]
    · rw [recvByte_store cfg b r g (by tauto) hlen hptr (by omega)]
      obtain ⟨front, hfront⟩ := hseen
      refine ⟨_, _, rfl, by simp [hlen], by simp [hptr], by simp; omega, ⟨front, ?_⟩, ?_⟩
      · simp only
        rw [take_succ_set _ _ _ (by omega), hfront]
        simp
      · simp only
        rw [take_succ_set _ _ _ (by omega)]
        intro x hx
        rcases List.mem_append.mp hx with h | h
        · exact hline x h
        · simp only [List.mem_singleton] at h
          subst h
          tauto

theorem recvLoop_invariant (cfg : Config) :
    ∀ (bytes seen : List Nat) (r : Reader) (g : Gateway),
      r.inputString.length = cfg.MY_GATEWAY_MAX_RECEIVE_LENGTH → r.ptr = r.nbytes →
      r.ptr < cfg.MY_GATEWAY_MAX_RECEIVE_LENGTH →
      (∃ front, seen = front ++ r.inputString.take r.ptr) →
      (∀ x ∈ r.inputString.take r.ptr, x ≠ 10 ∧ x ≠ 13) →
      ∃ r1 g1, recvLoop cfg bytes (r, g) = .ok (r1, g1) ∧
        r1.inputString.length = cfg.MY_GATEWAY_MAX_RECEIVE_LENGTH ∧ r1.ptr = r1.nbytes ∧
        r1.ptr < cfg.MY_GATEWAY_MAX_RECEIVE_LENGTH ∧
        (∃ front, seen ++ bytes = front ++ r1.inputString.take r1.ptr) ∧
        (∀ x ∈ r1.inputString.take r1.ptr, x ≠ 10 ∧ x ≠ 13) := by
  intro bytes
  induction bytes with
  | nil =>
    intro seen r g h1 h2 h3 h4 h5
    exact ⟨r, g, rfl, h1, h2, h3, by simpa using h4, h5⟩
  | cons b more ih =>
    intro seen r g h1 h2 h3 h4 h5
    obtain ⟨r1, g1, hstep, k1, k2, k3, k4, k5⟩ := recvByte_invariant cfg b seen r g h1 h2 h3 h4 h5
    obtain ⟨r2, g2, hrest, m1, m2, m3, m4, m5⟩ := ih (seen ++ [b]) r1 g1 k1 k2 k3 k4 k5
    refine ⟨r2, g2, ?_, m1, m2, m3, by simpa using m4, m5⟩
    simp only [recvLoop, hstep, hrest]

theorem cstr_length_le (l : List Nat) : (cstr l).length ≤ l.length :=
  (List.takeWhile_prefix _).length_le

/-- C12: with a line buffer of at least one byte, whatever bytes `connected_controller`
receives, its receive loop never writes outside `inputString`: it ends in a state (every
state it goes through is such an end state, of a shorter stream) in which the buffer has its
`MY_GATEWAY_MAX_RECEIVE_LENGTH` bytes, the write position `ptr` equals `nbytes` and lies in
`0 .. MY_GATEWAY_MAX_RECEIVE_LENGTH - 1`, and the bytes stored before `ptr` are the last
`nbytes` bytes received. From there any further byte is stored inside the buffer, and a
terminator stores the NUL at `ptr`, inside the buffer, and hands to `protocolParse` the C
string of the bytes before `ptr`, which has at most `MY_GATEWAY_MAX_RECEIVE_LENGTH - 1` bytes.
That length is reached: a line of exactly `MY_GATEWAY_MAX_RECEIVE_LENGTH - 1` bytes (none of
them NUL or a terminator) is handed to `protocolParse` whole. -/
theorem connected_controller_write_position (cfg : Config) (stack : Nat → Nat) (g : Gateway)
    (bytes : List Nat) (hbuf : 0 < cfg.MY_GATEWAY_MAX_RECEIVE_LENGTH) :
    (∃ r g1, recvLoop cfg bytes (Reader.start cfg stack, g) = .ok (r, g1) ∧
      r.inputString.length = cfg.MY_GATEWAY_MAX_RECEIVE_LENGTH ∧
      r.ptr = r.nbytes ∧ r.ptr ≤ cfg.MY_GATEWAY_MAX_RECEIVE_LENGTH - 1 ∧
      (∃ front, bytes = front ++ r.inputString.take r.ptr) ∧
      (∀ b, ∃ st, recvByte cfg b (r, g1) = .ok st) ∧
      (∀ t, t = 10 ∨ t = 13 →
        recvByte cfg t (r, g1) =
          .ok ({ inputString := r.inputString.set r.ptr 0, ptr := 0, nbytes := 0,
                 ethernetMsg :=
                   (cfg.protocolParse r.ethernetMsg (cstr (r.inputString.take r.ptr))).2 },
               if (cfg.protocolParse r.ethernetMsg (cstr (r.inputString.take r.ptr))).1 then
                 push_back g1
                   (cfg.protocolParse r.ethernetMsg (cstr (r.inputString.take r.ptr))).2
               else g1) ∧
        (cstr (r.inputString.take r.ptr)).length ≤ cfg.MY_GATEWAY_MAX_RECEIVE_LENGTH - 1)) ∧
    (∀ line : List Nat, line.length = cfg.MY_GATEWAY_MAX_RECEIVE_LENGTH - 1 →
      (∀ b ∈ line, b ≠ 0 ∧ b ≠ 10 ∧ b ≠ 13) →
      ∃ r1, recvLoop cfg (line ++ [10]) (Reader.start cfg stack, g) =
        .ok (r1, if (cfg.protocolParse cfg.newMyMessage line).1 then
                   push_back g (cfg.protocolParse cfg.newMyMessage line).2
                 else g)) := by
  constructor
  · obtain ⟨r, g1, h, k1, k2, k3, k4, _⟩ := recvLoop_invariant cfg bytes [] (Reader.start cfg stack)
      g (Reader.start_length cfg stack) rfl hbuf ⟨[], by simp [Reader.start]⟩
      (by simp [Reader.start])
    refine ⟨r, g1, h, k1, k2, by omega, by simpa using k4, ?_, ?_⟩
    · intro b
      obtain ⟨r1, g2, hstep, _⟩ := recvByte_ok cfg b r g1 k1 k2 k3
      exact ⟨_, hstep⟩
    · intro t ht
      refine ⟨recvByte_terminator cfg t r g1 ht (by omega), ?_⟩
      have h1 := cstr_length_le (r.inputString.take r.ptr)
      have h2 : (r.inputString.take r.ptr).length ≤ r.ptr := by simp
      omega
  · intro line hlen hline
    obtain ⟨r1, h, _⟩ := recvLoop_line cfg line 10 (Reader.start cfg stack) g
      (fun b hb => ⟨(hline b hb).2.1, (hline b hb).2.2⟩) (Or.inl rfl)
      (Reader.start_length cfg stack) rfl rfl (by omega)
    rw [cstr_eq_self line (fun b hb => (hline b hb).1)] at h
    exact ⟨r1, h⟩

/-- C12 with a buffer of 4 bytes and the example codec, after the six bytes `xxxxx1`. -/
theorem connected_controller_write_position_witness :
    (∃ r g1, recvLoop (exampleConfig 4) [120, 120, 120, 120, 120, 49]
        (Reader.start (exampleConfig 4) (fun _ => 7), exampleGateway [5]) = .ok (r, g1) ∧
      r.inputString.length = (exampleConfig 4).MY_GATEWAY_MAX_RECEIVE_LENGTH ∧
      r.ptr = r.nbytes ∧ r.ptr ≤ (exampleConfig 4).MY_GATEWAY_MAX_RECEIVE_LENGTH - 1 ∧
      (∃ front, [120, 120, 120, 120, 120, 49] = front ++ r.inputString.take r.ptr) ∧
      (∀ b, ∃ st, recvByte (exampleConfig 4) b (r, g1) = .ok st) ∧
      (∀ t, t = 10 ∨ t = 13 →
        recvByte (exampleConfig 4) t (r, g1) =
          .ok ({ inputString := r.inputString.set r.ptr 0, ptr := 0, nbytes := 0,
                 ethernetMsg :=
                   ((exampleConfig 4).protocolParse r.ethernetMsg
                     (cstr (r.inputString.take r.ptr))).2 },
               if ((exampleConfig 4).protocolParse r.ethernetMsg
                     (cstr (r.inputString.take r.ptr))).1 then
                 push_back g1
                   ((exampleConfig 4).protocolParse r.ethernetMsg
                     (cstr (r.inputString.take r.ptr))).2
               else g1) ∧
        (cstr (r.inputString.take r.ptr)).length ≤
          (exampleConfig 4).MY_GATEWAY_MAX_RECEIVE_LENGTH - 1)) ∧
    (∀ line : List Nat, line.length = (exampleConfig 4).MY_GATEWAY_MAX_RECEIVE_LENGTH - 1 →
      (∀ b ∈ line, b ≠ 0 ∧ b ≠ 10 ∧ b ≠ 13) →
      ∃ r1, recvLoop (exampleConfig 4) (line ++ [10])
          (Reader.start (exampleConfig 4) (fun _ => 7), exampleGateway [5]) =
        .ok (r1, if ((exampleConfig 4).protocolParse (exampleConfig 4).newMyMessage line).1 then
                   push_back (exampleGateway [5])
                     ((exampleConfig 4).protocolParse (exampleConfig 4).newMyMessage line).2
                 else exampleGateway [5])) :=
  connected_controller_write_position (exampleConfig 4) (fun _ => 7) (exampleGateway [5])
    [120, 120, 120, 120, 120, 49] (by decide)

/-! ## The digit loop of `ultoa` -/

theorem toUnsignedLong_natCast (w n : Nat) (h : n < 2 ^ w) : toUnsignedLong w (n : Int) = n := by
  unfold toUnsignedLong
  have h1 : ((n : Int) % (2 : Int) ^ w) = (n : Int) := by
    apply Int.emod_eq_of_lt (by omega)
    exact_mod_cast h
  rw [h1]
  simp

theorem ultoa_digit_char (charSigned : Bool) (d : Nat) (h : d < 36) :
    byteOf (if 10 > toChar charSigned d then 48 + toChar charSigned d
      else 65 + toChar charSigned d - 10) = digitChar d := by
  interval_cases d <;> cases charSigned <;> decide

theorem leastFirst_step (radix v : Nat) (hr : 2 ≤ radix) :
    leastFirst radix v = (v % radix) :: (if v / radix = 0 then [] else leastFirst radix (v / radix)) := by
  unfold leastFirst
  by_cases hv : v = 0
  · subst hv
    simp
  · rw [if_neg hv, Nat.digits_def' (by omega) (Nat.pos_of_ne_zero hv)]
    by_cases hq : v / radix = 0
    · simp [hq]
    · simp [hq]

theorem store_at_length (pre rest : List Nat) (x c : Nat) :
    store (pre ++ x :: rest) pre.length c = .ok (pre ++ c :: rest) := by
  unfold store
  rw [set_at_length]
  simp

theorem load_at_length (pre rest : List Nat) (x : Nat) :
    load (pre ++ x :: rest) pre.length = .ok x := by
  unfold load
  rw [getElem?_at_length]

/-- The digit loop writes the digits of `value`, least significant first, over the bytes
`old` that follow the offset it starts at, and stops behind them. -/
theorem ultoaDigits_eq (w : Nat) (charSigned : Bool) (radix : Nat) (hr : 2 ≤ radix)
    (hr36 : radix ≤ 36) (hw : radix < 2 ^ w) :
    ∀ (f value : Nat) (pre old rest : List Nat), value < radix ^ (f + 1) →
      old.length = (leastFirst radix value).length →
      ultoaDigits w charSigned (radix : Int) (f + 1) value pre.length (pre ++ old ++ rest) =
        .ok (pre.length + old.length,
          pre ++ (leastFirst radix value).map digitChar ++ rest) := by
  have hru : toUnsignedLong w (radix : Int) = radix := toUnsignedLong_natCast w radix hw
  intro f
  induction f with
  | zero =>
    intro value pre old rest hv hold
    have hq : value / radix = 0 := Nat.div_eq_of_lt (by simpa using hv)
    rw [leastFirst_step radix value hr, hq] at hold ⊢
    simp only [if_true, List.length_singleton] at hold
    obtain ⟨o, rfl⟩ : ∃ o, old = [o] := List.length_eq_one.mp hold
    have hrem : value % radix < 36 := lt_of_lt_of_le (Nat.mod_lt _ (by omega)) hr36
    unfold ultoaDigits
    simp only [hru, hq]
    rw [if_neg (by omega)]
    simp only [ultoa_digit_char charSigned _ hrem, List.append_assoc, List.singleton_append,
      store_at_length]
    simp
  | succ f ih =>
    intro value pre old rest hv hold
    rw [leastFirst_step radix value hr] at hold ⊢
    have hrem : value % radix < 36 := lt_of_lt_of_le (Nat.mod_lt _ (by omega)) hr36
    obtain ⟨o, old1, rfl⟩ : ∃ o old1, old = o :: old1 := by
      cases old with
      | nil => simp at hold
      | cons o old1 => exact ⟨o, old1, rfl⟩
    unfold ultoaDigits
    simp only [hru]
    rw [if_neg (by omega)]
    simp only [ultoa_digit_char charSigned _ hrem, List.append_assoc, List.cons_append,
      store_at_length]
    by_cases hq : value / radix = 0
    · simp only [hq, if_true, List.length_cons, List.length_nil] at hold
      have : old1 = [] := List.length_eq_zero.mp (by omega)
      subst this
      simp [hq]
    · simp only [hq, if_false, List.length_cons] at hold
      have hpos : 0 < value / radix := Nat.pos_of_ne_zero hq
      have hlt : value / radix < radix ^ (f + 1) := by
        apply Nat.div_lt_of_lt_mul
        rw [pow_succ] at hv
        rw [Nat.mul_comm]
        exact hv
      have := ih (value / radix) (pre ++ [digitChar (value % radix)]) old1 rest hlt (by omega)
      simp only [List.length_append, List.length_singleton, List.append_assoc,
        List.singleton_append, List.cons_append, List.nil_append] at this
      simp only [hpos, hq, if_true, if_false]
      rw [this]
      simp
      omega

/-! ## The reversal loop of `ultoa` -/

/-- The reversal loop reverses, in place, the bytes `mid` between `sp2` and `sp`. -/
theorem ultoaReverse_eq :
    ∀ (mid A B : List Nat) (fuel sp : Nat), mid.length ≤ fuel → 0 < fuel →
      sp + 1 = A.length + mid.length →
      ultoaReverse fuel A.length sp (A ++ mid ++ B) = .ok (A ++ mid.reverse ++ B) := by
  intro mid
  induction mid using List.bidirectionalRec with
  | nil =>
    intro A B fuel sp _ hpos hsp
    obtain ⟨f, rfl⟩ : ∃ f, fuel = f + 1 := ⟨fuel - 1, by omega⟩
    unfold ultoaReverse
    rw [if_neg (by simp at hsp; omega)]
    simp
  | singleton a =>
    intro A B fuel sp _ hpos hsp
    obtain ⟨f, rfl⟩ : ∃ f, fuel = f + 1 := ⟨fuel - 1, by omega⟩
    unfold ultoaReverse
    rw [if_neg (by simp at hsp; omega)]
    simp
  | cons_append x M y ih =>
    intro A B fuel sp hfuel hpos hsp
    obtain ⟨f, rfl⟩ : ∃ f, fuel = f + 1 := ⟨fuel - 1, by omega⟩
    simp only [List.length_cons, List.length_append, List.length_singleton,
      List.length_nil] at hfuel hsp
    have hlt : A.length < sp := by omega
    have hspl : sp = (A ++ x :: M).length := by simp; omega
    have h1 : load (A ++ x :: (M ++ [y]) ++ B) A.length = .ok x := by
      have := load_at_length A ((M ++ [y]) ++ B) x
      simpa using this
    have h2 : load (A ++ x :: (M ++ [y]) ++ B) sp = .ok y := by
      have := load_at_length (A ++ x :: M) B y
      rw [← hspl] at this
      simpa using this
    have h3 : store (A ++ x :: (M ++ [y]) ++ B) A.length y =
        .ok (A ++ y :: M ++ y :: B) := by
      have := store_at_length A ((M ++ [y]) ++ B) x y
      simpa using this
    have hspl2 : sp = (A ++ y :: M).length := by simp; omega
    have h4 : store (A ++ y :: M ++ y :: B) sp x = .ok ((A ++ [y]) ++ M ++ x :: B) := by
      have := store_at_length (A ++ y :: M) B y x
      rw [← hspl2] at this
      simpa using this
    have hrec := ih (A ++ [y]) (x :: B) f (sp - 1) (by omega) (by omega)
      (by simp; omega)
    simp only [List.length_append, List.length_singleton] at hrec
    unfold ultoaReverse
    rw [if_pos hlt]
    simp only [h1, h2, h3, h4, hrec]
    simp

/-! ## Numerals -/

theorem leastFirst_length_le (radix : Nat) (hr : 2 ≤ radix) :
    ∀ (k n : Nat), n < radix ^ (k + 1) → (leastFirst radix n).length ≤ k + 1 := by
  intro k
  induction k with
  | zero =>
    intro n hn
    have hq : n / radix = 0 := Nat.div_eq_of_lt (by simpa using hn)
    rw [leastFirst_step radix n hr, hq]
    simp
  | succ k ih =>
    intro n hn
    rw [leastFirst_step radix n hr]
    by_cases hq : n / radix = 0
    · simp [hq]
    · have hlt : n / radix < radix ^ (k + 1) := by
        apply Nat.div_lt_of_lt_mul
        rw [pow_succ] at hn
        rw [Nat.mul_comm]
        exact hn
      have := ih (n / radix) hlt
      simp only [hq, if_false, List.length_cons]
      omega

theorem leastFirst_lt (radix n : Nat) (hr : 2 ≤ radix) :
    ∀ d ∈ leastFirst radix n, d < radix := by
  intro d hd
  unfold leastFirst at hd
  by_cases hn : n = 0
  · simp [hn] at hd
    omega
  · rw [if_neg hn] at hd
    exact Nat.digits_lt_base (by omega) hd

theorem representation_eq_reverse (radix n : Nat) :
    representation radix n = ((leastFirst radix n).map digitChar).reverse := by
  unfold representation leastFirst
  by_cases hn : n = 0
  · simp [hn, digitChar]
  · simp [hn, List.map_reverse]

theorem digitValue_digitChar (d : Nat) (h : d < 36) : digitValue (digitChar d) = some d := by
  interval_cases d <;> decide

theorem digitChar_range (d : Nat) (h : d < 36) :
    (48 ≤ digitChar d ∧ digitChar d ≤ 57) ∨ (65 ≤ digitChar d ∧ digitChar d ≤ 90) := by
  unfold digitChar
  split_ifs <;> omega

theorem readDigits_map_digitChar (radix : Nat) (hr36 : radix ≤ 36) :
    ∀ (ds : List Nat) (acc : Nat), (∀ d ∈ ds, d < radix) →
      readDigits radix acc (ds.map digitChar) =
        some (ds.foldl (fun a d => a * radix + d) acc) := by
  intro ds
  induction ds with
  | nil => intro acc _; simp [readDigits]
  | cons d t ih =>
    intro acc h
    have hd : d < radix := h d (by simp)
    simp only [List.map_cons, readDigits, digitValue_digitChar d (by omega), hd, if_true,
      List.foldl_cons]
    exact ih _ (fun x hx => h x (by simp [hx]))

theorem foldl_reverse_ofDigits (radix : Nat) :
    ∀ L : List Nat, (L.reverse).foldl (fun a d => a * radix + d) 0 = Nat.ofDigits radix L := by
  intro L
  induction L with
  | nil => simp
  | cons h t ih =>
    simp only [List.reverse_cons, List.foldl_append, List.foldl_cons, List.foldl_nil, ih,
      Nat.ofDigits_cons]
    ring

theorem readBack_representation (radix n : Nat) (hr : 2 ≤ radix) (hr36 : radix ≤ 36) :
    readBack radix (representation radix n) = some n := by
  unfold readBack representation
  by_cases hn : n = 0
  · subst hn
    have h0 : (0 : Nat) < radix := by omega
    simp [readDigits, digitValue, h0]
  · rw [if_neg hn]
    have hne : List.map digitChar (Nat.digits radix n).reverse ≠ [] := by
      simp [Nat.digits_ne_nil_iff_ne_zero, hn]
    rw [if_neg hne, readDigits_map_digitChar radix hr36 _ 0
      (fun d hd => Nat.digits_lt_base (by omega) (List.mem_reverse.mp hd)),
      foldl_reverse_ofDigits, Nat.ofDigits_digits]

theorem representation_head (radix n : Nat) (hr : 2 ≤ radix) (hr36 : radix ≤ 36) (hn : n ≠ 0) :
    (representation radix n).head? ≠ some 48 := by
  unfold representation
  rw [if_neg hn]
  have hne : Nat.digits radix n ≠ [] := Nat.digits_ne_nil_iff_ne_zero.mpr hn
  have hlast := Nat.getLast_digit_ne_zero radix hn
  have hlt : (Nat.digits radix n).getLast hne < radix :=
    Nat.digits_lt_base (by omega) (List.getLast_mem hne)
  simp only [List.head?_map, List.head?_reverse, List.getLast?_eq_getLast _ hne,
    Option.map_some', ne_eq, Option.some.injEq]
  unfold digitChar
  split_ifs <;> omega

theorem representation_chars (radix n : Nat) (hr : 2 ≤ radix) (hr36 : radix ≤ 36) :
    ∀ c ∈ representation radix n, (48 ≤ c ∧ c ≤ 57) ∨ (65 ≤ c ∧ c ≤ 90) := by
  intro c hc
  rw [representation_eq_reverse] at hc
  simp only [List.mem_reverse, List.mem_map] at hc
  obtain ⟨d, hd, rfl⟩ := hc
  exact digitChar_range d (lt_of_lt_of_le (leastFirst_lt radix n hr d hd) hr36)

/-! ## Claims about `ultoa` -/

theorem exists_slot {α : Type} (l : List α) (i : Nat) (h : i < l.length) :
    ∃ z, l[i]? = some z :=
  ⟨l[i], List.getElem?_eq_getElem h⟩

/-- The three steps of `ultoa` after the sign: the digits are written behind `pre`, the NUL
behind the digits, and the digits are reversed in place. -/
theorem ultoa_steps (w : Nat) (charSigned : Bool) (radix : Nat) (hr : 2 ≤ radix)
    (hr36 : radix ≤ 36) (hw : radix < 2 ^ w) (fuel n : Nat) (pre old rest : List Nat) (z : Nat)
    (hfuel : 0 < fuel) (hn : n < radix ^ fuel)
    (hold : old.length = (leastFirst radix n).length) :
    ultoaDigits w charSigned (radix : Int) fuel n pre.length (pre ++ old ++ z :: rest) =
        .ok (pre.length + old.length,
          pre ++ (leastFirst radix n).map digitChar ++ z :: rest) ∧
    store (pre ++ (leastFirst radix n).map digitChar ++ z :: rest) (pre.length + old.length) 0 =
        .ok (pre ++ (leastFirst radix n).map digitChar ++ 0 :: rest) ∧
    ultoaReverse fuel pre.length (pre.length + old.length - 1)
        (pre ++ (leastFirst radix n).map digitChar ++ 0 :: rest) =
        .ok (pre ++ representation radix n ++ 0 :: rest) := by
  obtain ⟨f, rfl⟩ : ∃ f, fuel = f + 1 := ⟨fuel - 1, by omega⟩
  have hlen := leastFirst_length_le radix hr f n hn
  have hpos : 0 < (leastFirst radix n).length := by
    rw [leastFirst_step radix n hr]
    simp
  refine ⟨ultoaDigits_eq w charSigned radix hr hr36 hw f n pre old (z :: rest) hn hold, ?_, ?_⟩
  · have := store_at_length (pre ++ (leastFirst radix n).map digitChar) rest z 0
    simp only [List.length_append, List.length_map] at this
    rw [hold]
    exact this
  · rw [representation_eq_reverse]
    exact ultoaReverse_eq ((leastFirst radix n).map digitChar) pre (0 :: rest) (f + 1)
      (pre.length + old.length - 1) (by simpa using hlen) (by omega)
      (by simp only [List.length_map]; omega)

/-- C13: for a `long` of `w ≥ 32` bits, every radix in 2..36 and every `n` with
`0 ≤ n ≤ LONG_MAX`, (a) `ultoa(n, str, radix)`, given room for the digits and the NUL, returns
`str` (offset 0) and leaves at `str` the representation of `n` in that radix followed by NUL,
the bytes behind it untouched; (b) for `n > 0`, `ultoa(-n, str, 10)`, given room for the
sign, the digits and the NUL, returns `str` and leaves `'-'`, the decimal representation of
`n` and NUL. The representation has its most significant digit first: read back from left to
right in that radix it yields `n`; it is `"0"` for zero and does not start with `'0'`
otherwise; and its characters are `'0'`-`'9'` and `'A'`-`'Z'`. -/
theorem ultoa_writes_representation (w : Nat) (charSigned : Bool) (n radix fuel : Nat)
    (str : List Nat) (hw : 32 ≤ w) (hr : 2 ≤ radix) (hr36 : radix ≤ 36)
    (hn : n < 2 ^ (w - 1)) (hfuel : w ≤ fuel) :
    ((representation radix n).length < str.length →
      ultoa w charSigned (n : Int) str (radix : Int) fuel =
        .ok (0, representation radix n ++
          0 :: str.drop ((representation radix n).length + 1))) ∧
    (0 < n → (representation 10 n).length + 1 < str.length →
      ultoa w charSigned (-(n : Int)) str 10 fuel =
        .ok (0, 45 :: representation 10 n ++
          0 :: str.drop ((representation 10 n).length + 2))) ∧
    readBack radix (representation radix n) = some n ∧
    (n = 0 → representation radix n = [48]) ∧
    (n ≠ 0 → (representation radix n).head? ≠ some 48) ∧
    (∀ c ∈ representation radix n, (48 ≤ c ∧ c ≤ 57) ∨ (65 ≤ c ∧ c ≤ 90)) := by
  have h2w : (2 : Nat) ^ (w - 1) ≤ 2 ^ w := Nat.pow_le_pow_right (by omega) (by omega)
  have h32 : (2 : Nat) ^ 32 ≤ 2 ^ w := Nat.pow_le_pow_right (by omega) hw
  have hnw : n < 2 ^ w := by omega
  have hwf : (2 : Nat) ^ w ≤ 2 ^ fuel := Nat.pow_le_pow_right (by omega) hfuel
  have hbound : ∀ r : Nat, 2 ≤ r → n < r ^ fuel := fun r h2 =>
    lt_of_lt_of_le hnw (le_trans hwf (Nat.pow_le_pow_left h2 fuel))
  have hrep : ∀ r : Nat, (representation r n).length = (leastFirst r n).length := by
    intro r
    rw [representation_eq_reverse]
    simp
  refine ⟨?_, ?_, readBack_representation radix n hr hr36,
    fun h0 => by simp [representation, h0],
    representation_head radix n hr hr36, representation_chars radix n hr hr36⟩
  · intro hroom
    obtain ⟨z, hz⟩ := exists_slot str (representation radix n).length hroom
    obtain ⟨hsplit, hl, _⟩ := split_at_slot str _ z hz
    obtain ⟨k1, k2, k3⟩ := ultoa_steps w charSigned radix hr hr36 (by omega) fuel n []
      (str.take (representation radix n).length) (str.drop ((representation radix n).length + 1))
      z (by omega) (hbound radix hr) (by rw [hl, hrep])
    simp only [List.nil_append, List.length_nil, Nat.zero_add] at k1 k2 k3
    have hcond : ¬ ((10 : Int) = (radix : Int) ∧ (0 : Int) > (n : Int)) := by
      intro h
      omega
    unfold ultoa
    simp only [hcond, if_false, toUnsignedLong_natCast w n hnw]
    rw [← hsplit] at k1
    simp only [k1, k2, k3]
  · intro hpos hroom
    have hlen0 : 0 < str.length := by omega
    obtain ⟨s0, tail, rfl⟩ : ∃ s0 tail, str = s0 :: tail := by
      cases str with
      | nil => simp at hlen0
      | cons s0 tail => exact ⟨s0, tail, rfl⟩
    simp only [List.length_cons] at hroom
    obtain ⟨z, hz⟩ := exists_slot tail (representation 10 n).length (by omega)
    obtain ⟨hsplit, hl, _⟩ := split_at_slot tail _ z hz
    obtain ⟨k1, k2, k3⟩ := ultoa_steps w charSigned 10 (by omega) (by omega) (by omega) fuel n
      [45] (tail.take (representation 10 n).length)
      (tail.drop ((representation 10 n).length + 1)) z (by omega) (hbound 10 (by omega))
      (by rw [hl, hrep])
    simp only [List.length_singleton, List.singleton_append, List.cons_append,
      List.nil_append] at k1 k2 k3
    have hcond : ((10 : Int) = 10 ∧ (0 : Int) > -(n : Int)) := ⟨rfl, by omega⟩
    have hstore : store (s0 :: tail) 0 45 = .ok (45 :: tail) := by simp [store]
    have hval : toUnsignedLong w (- -(n : Int)) = n := by
      rw [neg_neg]
      exact toUnsignedLong_natCast w n hnw
    have hsub : 1 + (tail.take (representation 10 n).length).length - 1 =
        (tail.take (representation 10 n).length).length := by omega
    rw [← hsplit] at k1
    have k1' : ultoaDigits w charSigned 10 fuel n 1 (45 :: tail) =
        .ok (1 + (tail.take (representation 10 n).length).length,
          45 :: (List.map digitChar (leastFirst 10 n) ++
            z :: tail.drop ((representation 10 n).length + 1))) := by
      exact_mod_cast k1
    unfold ultoa
    simp only [hcond, and_self, if_true, hstore, hval, k1', k2, k3]
    simp

/-- Runs of the model of `ultoa`: 255 in base 16, 0 in base 2, -1234 in base 10, 35 in base 36
(for a 32-bit `long` and an unsigned `char`), and a buffer that is too small. -/
theorem ultoa_examples :
    ultoa 64 true 255 [1, 1, 1, 1, 1, 1, 1, 1] 16 64 = .ok (0, [70, 70, 0, 1, 1, 1, 1, 1]) ∧
    ultoa 64 true 0 [1, 1, 1, 1, 1, 1, 1, 1] 2 64 = .ok (0, [48, 0, 1, 1, 1, 1, 1, 1]) ∧
    ultoa 64 true (-1234) [1, 1, 1, 1, 1, 1, 1, 1] 10 64 =
      .ok (0, [45, 49, 50, 51, 52, 0, 1, 1]) ∧
    ultoa 32 false 35 [1, 1, 1] 36 32 = .ok (0, [90, 0, 1]) ∧
    ultoa 32 false 1295 [1, 1] 36 32 = .error UltoaFault.outOfBounds := by
  refine ⟨by decide, by decide, by decide, by decide, by decide⟩

/-- C13 at 255 in base 16 and at -1234 in base 10, for a 64-bit `long`. -/
theorem ultoa_writes_representation_witness :
    ultoa 64 true ((255 : Nat) : Int) [1, 1, 1, 1, 1, 1, 1, 1] ((16 : Nat) : Int) 64 =
      .ok (0, representation 16 255 ++
        0 :: [1, 1, 1, 1, 1, 1, 1, 1].drop ((representation 16 255).length + 1)) ∧
    ultoa 64 true (-((1234 : Nat) : Int)) [1, 1, 1, 1, 1, 1, 1, 1] 10 64 =
      .ok (0, 45 :: representation 10 1234 ++
        0 :: [1, 1, 1, 1, 1, 1, 1, 1].drop ((representation 10 1234).length + 2)) ∧
    readBack 16 (representation 16 255) = some 255 :=
  ⟨(ultoa_writes_representation 64 true 255 16 64 [1, 1, 1, 1, 1, 1, 1, 1] (by decide)
      (by decide) (by decide) (by decide) (by decide)).1 (by simp [representation]),
   (ultoa_writes_representation 64 true 1234 10 64 [1, 1, 1, 1, 1, 1, 1, 1] (by decide)
      (by decide) (by decide) (by decide) (by decide)).2.1 (by decide)
      (by simp [representation]),
   (ultoa_writes_representation 64 true 255 16 64 [1, 1, 1, 1, 1, 1, 1, 1] (by decide)
      (by decide) (by decide) (by decide) (by decide)).2.2.1⟩

end MyGateway
